import Mathlib

/-!
Verification of the macloop audio-processing core against its specification.

The Rust sources are shallowly embedded: each Rust struct becomes a Lean
structure, each method a Lean function on that structure.  Machine integers
are modelled as `Nat`/`Int`; `u64` arithmetic that can wrap is written with
an explicit `% 2 ^ 64`.  Sample values (`f32`/`f64` in the source) are
modelled as rationals: every claim under scrutiny depends only on order
comparisons and exact arithmetic on values that are exactly representable,
never on rounding behaviour.
-/

set_option maxRecDepth 100000

namespace Macloop

/-- Width modulus of the `u64` machine type. -/
def u64Mod : ℕ := 2 ^ 64

/-- Mirrors `enum AudioSourceType` from `src/messages.rs`. -/
inductive AudioSourceType where
  | Microphone
  | System
  deriving DecidableEq, Repr

/-- Mirrors `struct AudioFrame` from `src/messages.rs`.  `samples` are `f32`
in the source, modelled as rationals; `timestamp` is `u64` nanoseconds. -/
structure AudioFrame where
  source : AudioSourceType
  samples : List ℚ
  sample_rate : ℕ
  channels : ℕ
  timestamp : ℕ
  deriving DecidableEq, Repr

/-- Mirrors `cm_time_to_ns` from `src/capture.rs` lines 19-33.  `value` is
`i64`, `timescale` is `i32`; the body works in `u64`, so the products and the
sum are reduced mod `2 ^ 64` exactly where the machine type wraps.  In the
first branch the guard `value <= u64::MAX / 1_000_000_000` makes the product
fit, and the reduction is the identity. -/
def cm_time_to_ns (value : Int) (timescale : Int) : ℕ :=
  if timescale ≤ 0 ∨ value < 0 then
    0
  else
    let v : ℕ := value.toNat
    let t : ℕ := timescale.toNat
    if v ≤ (u64Mod - 1) / 1000000000 then
      (v * 1000000000) % u64Mod / t
    else
      ((v / t * 1000000000) % u64Mod + (v % t * 1000000000) % u64Mod / t) % u64Mod

/-- Largest `i64` value. -/
def i64Max : Int := 9223372036854775807

/-- C2: the four finite boundary values of `cm_time_to_ns` hold, but at
(i64::MAX, 48000) the claim "positive value without overflow" fails on the
code: the intermediate product `value / timescale * 1_000_000_000` exceeds
`u64::MAX` (the exact result `⌊i64::MAX * 1e9 / 48000⌋` itself exceeds
`u64::MAX`), so the `u64` computation wraps and the returned value differs
from the exact one.  The wrapped value happens to be positive, but overflow
does occur — contrary to the code's own comment ("divide first to avoid
multiplication overflow") and the test named
`cm_time_to_ns_handles_large_values_without_overflow`, which panics under
the default (overflow-checking) test profile. -/
theorem cm_time_to_ns_boundary :
    cm_time_to_ns 1 1 = 1000000000 ∧
    cm_time_to_ns 480 48000 = 10000000 ∧
    cm_time_to_ns (-1) 1 = 0 ∧
    cm_time_to_ns 1 0 = 0 ∧
    u64Mod ≤ i64Max.toNat / 48000 * 1000000000 ∧
    cm_time_to_ns i64Max 48000 = 12297829382473013577 ∧
    cm_time_to_ns i64Max 48000 ≠ i64Max.toNat * 1000000000 / 48000 ∧
    0 < cm_time_to_ns i64Max 48000 := by
  refine ⟨by decide, by decide, by decide, by decide, by decide, by decide,
    by decide, by decide⟩

/-- Mirrors `struct TimestampNormalizer` from `src/processors/timestamp.rs`.
`normalized_start_time` is sampled from the wall clock in `new`; it enters
the embedding as a parameter. -/
structure TimestampNormalizer where
  first_sys_timestamp : Option ℕ
  first_mic_timestamp : Option ℕ
  normalized_start_time : ℕ
  deriving DecidableEq, Repr

/-- Mirrors `TimestampNormalizer::new`; the wall-clock epoch (a `u64`) is the
argument. -/
def TimestampNormalizer.new (epoch : ℕ) : TimestampNormalizer :=
  { first_sys_timestamp := none
    first_mic_timestamp := none
    normalized_start_time := epoch % u64Mod }

/-- Mirrors `TimestampNormalizer::normalize_timestamp` (timestamp.rs 26-45).
`timestamp.saturating_sub(first)` is `Nat` subtraction; the surrounding `u64`
addition wraps, hence the `% u64Mod`. -/
def TimestampNormalizer.normalize_timestamp (p : TimestampNormalizer)
    (timestamp : ℕ) (source : AudioSourceType) : TimestampNormalizer × ℕ :=
  match source with
  | .System =>
    match p.first_sys_timestamp with
    | some first => (p, (p.normalized_start_time + (timestamp - first)) % u64Mod)
    | none =>
      ({ p with first_sys_timestamp := some timestamp }, p.normalized_start_time)
  | .Microphone =>
    match p.first_mic_timestamp with
    | some first => (p, (p.normalized_start_time + (timestamp - first)) % u64Mod)
    | none =>
      ({ p with first_mic_timestamp := some timestamp }, p.normalized_start_time)

/-- Mirrors `<TimestampNormalizer as AudioProcessor>::process` (timestamp.rs
49-52): rewrite the frame timestamp in place and always emit. -/
def TimestampNormalizer.process (p : TimestampNormalizer) (frame : AudioFrame) :
    TimestampNormalizer × Option AudioFrame :=
  let r := p.normalize_timestamp frame.timestamp frame.source
  (r.1, some { frame with timestamp := r.2 })

/-- Drives `process` over a list of frames, collecting every emission in
order (the normalizer's `drain_ready` is the default `None`). -/
def TimestampNormalizer.processRun (p : TimestampNormalizer)
    (frames : List AudioFrame) : TimestampNormalizer × List AudioFrame :=
  match frames with
  | [] => (p, [])
  | f :: fs =>
    let r := p.process f
    let rest := r.1.processRun fs
    (rest.1, r.2.toList ++ rest.2)

/-- Per-source anchor stored in the normalizer for a given source tag. -/
def TimestampNormalizer.anchorOf (p : TimestampNormalizer) :
    AudioSourceType → Option ℕ
  | .System => p.first_sys_timestamp
  | .Microphone => p.first_mic_timestamp

/-- One-source recursion derived from `normalize_timestamp`: the sequence of
normalized timestamps a single source sees, given the source's current
anchor. -/
def singleRun (epoch : ℕ) (anchor : Option ℕ) : List ℕ → List ℕ
  | [] => []
  | t :: ts =>
    match anchor with
    | some a => ((epoch + (t - a)) % u64Mod) :: singleRun epoch (some a) ts
    | none => epoch :: singleRun epoch (some t) ts

/-- Restricting a normalizer run to one source gives exactly the one-source
recursion `singleRun`, started from that source's current anchor. -/
theorem processRun_filter_eq_singleRun (p : TimestampNormalizer)
    (frames : List AudioFrame) (src : AudioSourceType) :
    (((p.processRun frames).2.filter fun f => decide (f.source = src)).map
        (fun f => f.timestamp))
      = singleRun p.normalized_start_time (p.anchorOf src)
          ((frames.filter fun f => decide (f.source = src)).map
            (fun f => f.timestamp)) := by
  induction frames generalizing p with
  | nil => rfl
  | cons f fs ih =>
    cases hfs : f.source with
    | System =>
      cases src with
      | System =>
        cases ha : p.first_sys_timestamp with
        | some a =>
          simp [TimestampNormalizer.processRun, TimestampNormalizer.process,
            TimestampNormalizer.normalize_timestamp, hfs, ha, singleRun,
            TimestampNormalizer.anchorOf, ih]
        | none =>
          simp [TimestampNormalizer.processRun, TimestampNormalizer.process,
            TimestampNormalizer.normalize_timestamp, hfs, ha, singleRun,
            TimestampNormalizer.anchorOf, ih]
      | Microphone =>
        cases ha : p.first_sys_timestamp with
        | some a =>
          simp [TimestampNormalizer.processRun, TimestampNormalizer.process,
            TimestampNormalizer.normalize_timestamp, hfs, ha,
            TimestampNormalizer.anchorOf, ih]
        | none =>
          simp [TimestampNormalizer.processRun, TimestampNormalizer.process,
            TimestampNormalizer.normalize_timestamp, hfs, ha,
            TimestampNormalizer.anchorOf, ih]
    | Microphone =>
      cases src with
      | System =>
        cases ha : p.first_mic_timestamp with
        | some a =>
          simp [TimestampNormalizer.processRun, TimestampNormalizer.process,
            TimestampNormalizer.normalize_timestamp, hfs, ha,
            TimestampNormalizer.anchorOf, ih]
        | none =>
          simp [TimestampNormalizer.processRun, TimestampNormalizer.process,
            TimestampNormalizer.normalize_timestamp, hfs, ha,
            TimestampNormalizer.anchorOf, ih]
      | Microphone =>
        cases ha : p.first_mic_timestamp with
        | some a =>
          simp [TimestampNormalizer.processRun, TimestampNormalizer.process,
            TimestampNormalizer.normalize_timestamp, hfs, ha, singleRun,
            TimestampNormalizer.anchorOf, ih]
        | none =>
          simp [TimestampNormalizer.processRun, TimestampNormalizer.process,
            TimestampNormalizer.normalize_timestamp, hfs, ha, singleRun,
            TimestampNormalizer.anchorOf, ih]

/-- Every output of an anchored one-source run is at least the epoch,
provided the `u64` additions do not wrap. -/
theorem singleRun_some_ge (epoch a : ℕ) (ts : List ℕ)
    (hb : ∀ t ∈ ts, epoch + t < u64Mod) :
    ∀ o ∈ singleRun epoch (some a) ts, epoch ≤ o := by
  induction ts with
  | nil => simp [singleRun]
  | cons t rest ih =>
    intro o ho
    simp only [singleRun, List.mem_cons] at ho
    rcases ho with h | h
    · have h1 : epoch + (t - a) < u64Mod :=
        lt_of_le_of_lt (Nat.add_le_add_left (Nat.sub_le t a) epoch)
          (hb t (by simp))
      rw [h, Nat.mod_eq_of_lt h1]
      exact Nat.le_add_right _ _
    · exact ih (fun x hx => hb x (by simp [hx])) o h

/-- An anchored one-source run of non-decreasing raw timestamps is
non-decreasing, provided the `u64` additions do not wrap. -/
theorem singleRun_some_chain (epoch a : ℕ) (ts : List ℕ)
    (hb : ∀ t ∈ ts, epoch + t < u64Mod)
    (hmono : List.Chain' (· ≤ ·) ts) :
    List.Chain' (· ≤ ·) (singleRun epoch (some a) ts) := by
  induction ts with
  | nil => simp [singleRun]
  | cons t rest ih =>
    rw [List.chain'_cons'] at hmono
    simp only [singleRun]
    rw [List.chain'_cons']
    constructor
    · intro y hy
      cases rest with
      | nil => simp [singleRun] at hy
      | cons r rest' =>
        simp only [singleRun, List.head?_cons, Option.mem_def,
          Option.some.injEq] at hy
        have htr : t ≤ r := hmono.1 r (by simp)
        have h1 : epoch + (t - a) < u64Mod :=
          lt_of_le_of_lt (Nat.add_le_add_left (Nat.sub_le t a) epoch)
            (hb t (by simp))
        have h2 : epoch + (r - a) < u64Mod :=
          lt_of_le_of_lt (Nat.add_le_add_left (Nat.sub_le r a) epoch)
            (hb r (by simp))
        rw [← hy, Nat.mod_eq_of_lt h1, Nat.mod_eq_of_lt h2]
        exact Nat.add_le_add_left (Nat.sub_le_sub_right htr a) epoch
    · exact ih (fun x hx => hb x (by simp [hx])) hmono.2

/-- C3 counterexample: the claim fails as stated.  From a fresh normalizer
(epoch 0), Microphone frames with raw timestamps 100, 200, 150 come out as
0, 100, 50 — the within-source output sequence is not monotonically
non-decreasing. -/
theorem timestamp_normalizer_not_monotone_cex :
    (((TimestampNormalizer.new 0).processRun
          [AudioFrame.mk .Microphone [] 48000 1 100,
            AudioFrame.mk .Microphone [] 48000 1 200,
            AudioFrame.mk .Microphone [] 48000 1 150]).2.map
        (fun f => f.timestamp)) = [0, 100, 50] ∧
      ¬ List.Chain' (· ≤ ·)
        (((TimestampNormalizer.new 0).processRun
            [AudioFrame.mk .Microphone [] 48000 1 100,
              AudioFrame.mk .Microphone [] 48000 1 200,
              AudioFrame.mk .Microphone [] 48000 1 150]).2.map
          (fun f => f.timestamp)) := by
  have h : (((TimestampNormalizer.new 0).processRun
        [AudioFrame.mk .Microphone [] 48000 1 100,
          AudioFrame.mk .Microphone [] 48000 1 200,
          AudioFrame.mk .Microphone [] 48000 1 150]).2.map
      (fun f => f.timestamp)) = [0, 100, 50] := by decide
  refine ⟨h, ?_⟩
  rw [h]
  intro hch
  rw [List.chain'_cons, List.chain'_cons] at hch
  omega

/-- C3 amended: for every run of `TimestampNormalizer`, each output timestamp
is at least the first normalized timestamp of its source (the epoch), and
within one source the outputs are monotonically non-decreasing, PROVIDED the
raw input timestamps within that source are non-decreasing and the `u64`
addition `epoch + (ts - anchor)` never wraps (both forced: the normalizer is
monotone but not monotonizing, and its addition is machine arithmetic). -/
theorem timestamp_normalizer_monotone (epoch : ℕ) (frames : List AudioFrame)
    (src : AudioSourceType)
    (hepoch : epoch < u64Mod)
    (hb : ∀ f ∈ frames, epoch + f.timestamp < u64Mod)
    (hmono : List.Chain' (· ≤ ·)
      ((frames.filter fun f => decide (f.source = src)).map
        (fun f => f.timestamp))) :
    List.Chain' (· ≤ ·)
        ((((TimestampNormalizer.new epoch).processRun frames).2.filter
          fun f => decide (f.source = src)).map (fun f => f.timestamp)) ∧
      (∀ o ∈ (((TimestampNormalizer.new epoch).processRun frames).2.filter
          fun f => decide (f.source = src)).map (fun f => f.timestamp),
        epoch ≤ o) ∧
      (((((TimestampNormalizer.new epoch).processRun frames).2.filter
            fun f => decide (f.source = src)).map
          (fun f => f.timestamp)).head? = none ∨
        ((((TimestampNormalizer.new epoch).processRun frames).2.filter
            fun f => decide (f.source = src)).map
          (fun f => f.timestamp)).head? = some epoch) := by
  have hanchor : (TimestampNormalizer.new epoch).anchorOf src = none := by
    cases src <;> rfl
  have hstart : (TimestampNormalizer.new epoch).normalized_start_time = epoch := by
    simp [TimestampNormalizer.new, Nat.mod_eq_of_lt hepoch]
  have hcomm := processRun_filter_eq_singleRun (TimestampNormalizer.new epoch)
    frames src
  rw [hanchor, hstart] at hcomm
  rw [hcomm]
  have hbts : ∀ t ∈ ((frames.filter fun f => decide (f.source = src)).map
      (fun f => f.timestamp)), epoch + t < u64Mod := by
    intro t ht
    simp only [List.mem_map, List.mem_filter] at ht
    obtain ⟨f, ⟨hf, _⟩, rfl⟩ := ht
    exact hb f hf
  cases hts : (frames.filter fun f => decide (f.source = src)).map
      (fun f => f.timestamp) with
  | nil => simp [singleRun]
  | cons t rest =>
    rw [hts] at hbts hmono
    have hrest : ∀ x ∈ rest, epoch + x < u64Mod := fun x hx =>
      hbts x (by simp [hx])
    refine ⟨?_, ?_, ?_⟩
    · simp only [singleRun]
      rw [List.chain'_cons']
      refine ⟨?_, singleRun_some_chain epoch t rest hrest hmono.tail⟩
      intro y hy
      exact singleRun_some_ge epoch t rest hrest y (List.mem_of_mem_head? hy)
    · intro o ho
      simp only [singleRun, List.mem_cons] at ho
      rcases ho with rfl | ho
      · exact le_refl _
      · exact singleRun_some_ge epoch t rest hrest o ho
    · right
      simp [singleRun]

/-- Witness for C3 amended: a concrete monotone Microphone run through a
fresh normalizer with epoch 7. -/
theorem timestamp_normalizer_monotone_witness :
    List.Chain' (· ≤ ·)
        (((((TimestampNormalizer.new 7).processRun
            [AudioFrame.mk .Microphone [] 48000 1 10,
              AudioFrame.mk .Microphone [] 48000 1 25]).2.filter
          fun f => decide (f.source = AudioSourceType.Microphone)).map
          (fun f => f.timestamp))) ∧
      (∀ o ∈ ((((TimestampNormalizer.new 7).processRun
            [AudioFrame.mk .Microphone [] 48000 1 10,
              AudioFrame.mk .Microphone [] 48000 1 25]).2.filter
          fun f => decide (f.source = AudioSourceType.Microphone)).map
          (fun f => f.timestamp)), 7 ≤ o) ∧
      ((((((TimestampNormalizer.new 7).processRun
            [AudioFrame.mk .Microphone [] 48000 1 10,
              AudioFrame.mk .Microphone [] 48000 1 25]).2.filter
          fun f => decide (f.source = AudioSourceType.Microphone)).map
          (fun f => f.timestamp)).head? = none) ∨
        ((((TimestampNormalizer.new 7).processRun
            [AudioFrame.mk .Microphone [] 48000 1 10,
              AudioFrame.mk .Microphone [] 48000 1 25]).2.filter
          fun f => decide (f.source = AudioSourceType.Microphone)).map
          (fun f => f.timestamp)).head? = some 7) :=
  timestamp_normalizer_monotone 7
    [AudioFrame.mk .Microphone [] 48000 1 10,
      AudioFrame.mk .Microphone [] 48000 1 25]
    AudioSourceType.Microphone (by decide) (by decide)
    (by
      have h : ((([AudioFrame.mk .Microphone [] 48000 1 10,
            AudioFrame.mk .Microphone [] 48000 1 25] :
            List AudioFrame).filter
          fun f => decide (f.source = AudioSourceType.Microphone)).map
          (fun f => f.timestamp)) = [10, 25] := by decide
      rw [h, List.chain'_cons]
      exact ⟨by omega, List.chain'_singleton 25⟩)

/-- Mirrors `struct QuantizerState` from `src/processors/quantizer.rs`. -/
structure QuantizerState where
  sample_buffer : List ℚ
  current_timestamp : ℕ
  samples_processed : ℕ
  deriving DecidableEq, Repr

/-- Mirrors `QuantizerState::with_capacity` (capacity is a non-semantic
allocation hint). -/
def QuantizerState.empty : QuantizerState :=
  { sample_buffer := [], current_timestamp := 0, samples_processed := 0 }

/-- Mirrors `struct FrameQuantizer` from `src/processors/quantizer.rs`. -/
structure FrameQuantizer where
  mic_state : QuantizerState
  sys_state : QuantizerState
  ready_queue : List AudioFrame
  quantum_size : ℕ
  expected_sample_rate : ℕ
  expected_channels : ℕ
  deriving DecidableEq, Repr

/-- Mirrors `FrameQuantizer::for_webrtc`. -/
def FrameQuantizer.for_webrtc : FrameQuantizer :=
  { mic_state := .empty, sys_state := .empty, ready_queue := []
    quantum_size := 480, expected_sample_rate := 48000, expected_channels := 1 }

/-- Mirrors `FrameQuantizer::with_quantum_size`. -/
def FrameQuantizer.with_quantum_size (quantum_size sample_rate channels : ℕ) :
    FrameQuantizer :=
  { mic_state := .empty, sys_state := .empty, ready_queue := []
    quantum_size, expected_sample_rate := sample_rate
    expected_channels := channels }

/-- Read side of `FrameQuantizer::source_state_mut`. -/
def FrameQuantizer.source_state (fq : FrameQuantizer) :
    AudioSourceType → QuantizerState
  | .Microphone => fq.mic_state
  | .System => fq.sys_state

/-- Write side of `FrameQuantizer::source_state_mut`. -/
def FrameQuantizer.set_source_state (fq : FrameQuantizer) :
    AudioSourceType → QuantizerState → FrameQuantizer
  | .Microphone, st => { fq with mic_state := st }
  | .System, st => { fq with sys_state := st }

/-- Mirrors `FrameQuantizer::extract_quantum_from_state` (quantizer.rs
65-88).  Timestamp arithmetic is `u64`, hence the explicit wraps. -/
def extract_quantum_from_state (source : AudioSourceType)
    (state : QuantizerState)
    (quantum_size expected_sample_rate expected_channels : ℕ) :
    Option (QuantizerState × AudioFrame) :=
  if state.sample_buffer.length < quantum_size then
    none
  else
    let samples := state.sample_buffer.take quantum_size
    let quantum_timestamp := (state.current_timestamp +
      (state.samples_processed * 1000000000) % u64Mod /
        expected_sample_rate) % u64Mod
    some
      ({ state with
          sample_buffer := state.sample_buffer.drop quantum_size
          samples_processed :=
            (state.samples_processed + quantum_size) % u64Mod },
        { source, samples, sample_rate := expected_sample_rate
          channels := expected_channels, timestamp := quantum_timestamp })

/-- Fuelled unrolling of the `loop` in `enqueue_ready_quanta` /
`flush_source`: repeatedly extract full quanta until none remains.  When the
quantum is positive, `sample_buffer.length + 1` units of fuel are more than
the loop can ever iterate, so the wrapper below is exactly the Rust loop (a
zero quantum makes the Rust loop diverge; it never occurs in this
pipeline). -/
def extractLoopFuel (fuel : ℕ) (source : AudioSourceType)
    (state : QuantizerState)
    (quantum_size expected_sample_rate expected_channels : ℕ) :
    QuantizerState × List AudioFrame :=
  match fuel with
  | 0 => (state, [])
  | fuel + 1 =>
    match extract_quantum_from_state source state quantum_size
        expected_sample_rate expected_channels with
    | none => (state, [])
    | some (st', f) =>
      let r := extractLoopFuel fuel source st' quantum_size
        expected_sample_rate expected_channels
      (r.1, f :: r.2)

/-- The extraction loop with adequate fuel. -/
def extractLoop (source : AudioSourceType) (state : QuantizerState)
    (quantum_size expected_sample_rate expected_channels : ℕ) :
    QuantizerState × List AudioFrame :=
  extractLoopFuel (state.sample_buffer.length + 1) source state quantum_size
    expected_sample_rate expected_channels

/-- Mirrors `FrameQuantizer::enqueue_ready_quanta` (quantizer.rs 90-121). -/
def FrameQuantizer.enqueue_ready_quanta (fq : FrameQuantizer)
    (source : AudioSourceType) (frame_timestamp : ℕ)
    (frame_samples : List ℚ) : FrameQuantizer :=
  let st0 := fq.source_state source
  let st1 :=
    if st0.sample_buffer = [] ∧ st0.samples_processed = 0 then
      { st0 with current_timestamp := frame_timestamp }
    else st0
  let st2 := { st1 with sample_buffer := st1.sample_buffer ++ frame_samples }
  let r := extractLoop source st2 fq.quantum_size fq.expected_sample_rate
    fq.expected_channels
  let fq' := fq.set_source_state source r.1
  { fq' with ready_queue := fq'.ready_queue ++ r.2 }

/-- Mirrors `<FrameQuantizer as AudioProcessor>::process` (quantizer.rs
174-186); the `Result` in the source is always `Ok`, so the embedding
returns the payload directly. -/
def FrameQuantizer.process (fq : FrameQuantizer) (frame : AudioFrame) :
    FrameQuantizer × Option AudioFrame :=
  if frame.sample_rate ≠ fq.expected_sample_rate then (fq, none)
  else if frame.channels ≠ fq.expected_channels then (fq, none)
  else
    let fq1 := fq.enqueue_ready_quanta frame.source frame.timestamp
      frame.samples
    match fq1.ready_queue with
    | [] => (fq1, none)
    | f :: rest => ({ fq1 with ready_queue := rest }, some f)

/-- Mirrors `<FrameQuantizer as AudioProcessor>::drain_ready` (quantizer.rs
188-190). -/
def FrameQuantizer.drain_ready (fq : FrameQuantizer) :
    FrameQuantizer × Option AudioFrame :=
  match fq.ready_queue with
  | [] => (fq, none)
  | f :: rest => ({ fq with ready_queue := rest }, some f)

/-- Mirrors `FrameQuantizer::flush_source` (quantizer.rs 123-170).
`Vec::resize(quantum_size, 0.0)` zero-pads a short tail (and would truncate
a long one, which cannot occur). -/
def FrameQuantizer.flush_source (fq : FrameQuantizer)
    (source : AudioSourceType) : FrameQuantizer × List AudioFrame :=
  let r := extractLoop source (fq.source_state source) fq.quantum_size
    fq.expected_sample_rate fq.expected_channels
  let st := r.1
  if st.sample_buffer = [] then
    (fq.set_source_state source st, r.2)
  else
    let samples := (st.sample_buffer ++
      List.replicate (fq.quantum_size - st.sample_buffer.length) 0).take
        fq.quantum_size
    let timestamp := (st.current_timestamp +
      (st.samples_processed * 1000000000) % u64Mod /
        fq.expected_sample_rate) % u64Mod
    (fq.set_source_state source { st with sample_buffer := [] },
      r.2 ++ [AudioFrame.mk source samples fq.expected_sample_rate
        fq.expected_channels timestamp])

/-- Mirrors `<FrameQuantizer as AudioProcessor>::flush` (quantizer.rs
192-203): drain the ready queue, then flush System, then Microphone. -/
def FrameQuantizer.flush (fq : FrameQuantizer) :
    FrameQuantizer × List AudioFrame :=
  let results := fq.ready_queue
  let fq1 := { fq with ready_queue := [] }
  let r1 := fq1.flush_source .System
  let r2 := r1.1.flush_source .Microphone
  (r2.1, results ++ r1.2 ++ r2.2)

/-- Exhaustive `drain_ready`: popping until the queue reports none empties
the queue and returns its frames in order (certified against `drain_ready`
by the two lemmas that follow). -/
def FrameQuantizer.drainAll (fq : FrameQuantizer) :
    FrameQuantizer × List AudioFrame :=
  ({ fq with ready_queue := [] }, fq.ready_queue)

/-- A `drain_ready` that reports none leaves `drainAll` with no output. -/
theorem drainAll_of_drain_ready_none (fq : FrameQuantizer)
    (h : fq.drain_ready = (fq, none)) : fq.drainAll = (fq, []) := by
  cases fq with
  | mk ms ss rq q r c =>
    cases rq with
    | nil => rfl
    | cons g rest => simp [FrameQuantizer.drain_ready] at h

/-- A successful `drain_ready` commutes with `drainAll`: exhaustive draining
is exactly the iteration of `drain_ready` until none. -/
theorem drainAll_of_drain_ready_some (fq fq' : FrameQuantizer)
    (f : AudioFrame) (h : fq.drain_ready = (fq', some f)) :
    fq.drainAll = (fq'.drainAll.1, f :: fq'.drainAll.2) := by
  cases fq with
  | mk ms ss rq q r c =>
    cases rq with
    | nil => simp [FrameQuantizer.drain_ready] at h
    | cons g rest =>
      simp only [FrameQuantizer.drain_ready, Prod.mk.injEq,
        Option.some.injEq] at h
      obtain ⟨h1, h2⟩ := h
      subst h1
      subst h2
      rfl

/-- One pipeline round on the quantizer: `process` followed by exhaustive
`drain_ready`, collecting every emission in order. -/
def FrameQuantizer.quantStep (fq : FrameQuantizer) (frame : AudioFrame) :
    FrameQuantizer × List AudioFrame :=
  let r := fq.process frame
  let d := r.1.drainAll
  (d.1, r.2.toList ++ d.2)

/-- Feeding a whole frame sequence through `process`-plus-drain rounds. -/
def FrameQuantizer.runQuantizer (fq : FrameQuantizer)
    (frames : List AudioFrame) : FrameQuantizer × List AudioFrame :=
  match frames with
  | [] => (fq, [])
  | f :: fs =>
    let r := fq.quantStep f
    let rest := r.1.runQuantizer fs
    (rest.1, r.2 ++ rest.2)

/-- Total number of samples held by a list of frames. -/
def totalSamples (frames : List AudioFrame) : ℕ :=
  (frames.map (fun f => f.samples.length)).sum

/-- Sum of the buffered sample counts of the two per-source states. -/
def bufLens (fq : FrameQuantizer) : ℕ :=
  fq.mic_state.sample_buffer.length + fq.sys_state.sample_buffer.length

/-- Invariant maintained between pipeline rounds on the quantizer: the ready
queue has been drained and both per-source buffers hold less than one
quantum. -/
def GoodQ (fq : FrameQuantizer) : Prop :=
  fq.ready_queue = [] ∧
    fq.mic_state.sample_buffer.length < fq.quantum_size ∧
    fq.sys_state.sample_buffer.length < fq.quantum_size

/-- Concatenation splits the total sample count. -/
theorem totalSamples_append (a b : List AudioFrame) :
    totalSamples (a ++ b) = totalSamples a + totalSamples b := by
  simp [totalSamples]

/-- Inversion of a successful quantum extraction. -/
theorem extract_quantum_some {source : AudioSourceType}
    {state st' : QuantizerState} {q rate ch : ℕ} {f : AudioFrame}
    (h : extract_quantum_from_state source state q rate ch = some (st', f)) :
    q ≤ state.sample_buffer.length ∧
      st'.sample_buffer = state.sample_buffer.drop q ∧
      f.samples.length = q := by
  unfold extract_quantum_from_state at h
  split at h
  · simp at h
  · next hlen =>
    simp only [Option.some.injEq, Prod.mk.injEq] at h
    obtain ⟨h1, h2⟩ := h
    push_neg at hlen
    refine ⟨hlen, ?_, ?_⟩
    · rw [← h1]
    · rw [← h2]
      simp [List.length_take, Nat.min_eq_left hlen]

/-- Inversion of a failed quantum extraction. -/
theorem extract_quantum_none {source : AudioSourceType}
    {state : QuantizerState} {q rate ch : ℕ}
    (h : extract_quantum_from_state source state q rate ch = none) :
    state.sample_buffer.length < q := by
  unfold extract_quantum_from_state at h
  split at h
  · next hlen => exact hlen
  · simp at h

/-- The fuelled extraction loop conserves samples: emitted plus left-over
equals the initial buffer content. -/
theorem extractLoopFuel_conserves (fuel : ℕ) (source : AudioSourceType)
    (state : QuantizerState) (q rate ch : ℕ) :
    totalSamples (extractLoopFuel fuel source state q rate ch).2 +
      (extractLoopFuel fuel source state q rate ch).1.sample_buffer.length =
      state.sample_buffer.length := by
  induction fuel generalizing state with
  | zero => simp [extractLoopFuel, totalSamples]
  | succ fuel ih =>
    unfold extractLoopFuel
    cases h : extract_quantum_from_state source state q rate ch with
    | none => simp [totalSamples]
    | some p =>
      obtain ⟨st', f⟩ := p
      obtain ⟨hle, hdrop, hflen⟩ := extract_quantum_some h
      have := ih st'
      simp only [totalSamples, List.map_cons, List.sum_cons] at this ⊢
      rw [hflen]
      have hst' : st'.sample_buffer.length =
          state.sample_buffer.length - q := by rw [hdrop]; simp
      omega

/-- With enough fuel and a positive quantum, the extraction loop leaves less
than one quantum in the buffer. -/
theorem extractLoopFuel_residue (fuel : ℕ) (source : AudioSourceType)
    (state : QuantizerState) (q rate ch : ℕ) (hq : 0 < q)
    (hfuel : state.sample_buffer.length < fuel * q + q) :
    (extractLoopFuel fuel source state q rate ch).1.sample_buffer.length
      < q := by
  induction fuel generalizing state with
  | zero =>
    simpa [extractLoopFuel] using (by omega : state.sample_buffer.length < q)
  | succ fuel ih =>
    unfold extractLoopFuel
    cases h : extract_quantum_from_state source state q rate ch with
    | none => exact extract_quantum_none h
    | some p =>
      obtain ⟨st', f⟩ := p
      obtain ⟨hle, hdrop, _⟩ := extract_quantum_some h
      have hst' : st'.sample_buffer.length =
          state.sample_buffer.length - q := by rw [hdrop]; simp
      rw [Nat.succ_mul] at hfuel
      exact ih st' (by omega)

/-- `extractLoop` conserves samples. -/
theorem extractLoop_conserves (source : AudioSourceType)
    (state : QuantizerState) (q rate ch : ℕ) :
    totalSamples (extractLoop source state q rate ch).2 +
      (extractLoop source state q rate ch).1.sample_buffer.length =
      state.sample_buffer.length :=
  extractLoopFuel_conserves _ source state q rate ch

/-- `extractLoop` leaves less than one quantum when the quantum is
positive. -/
theorem extractLoop_residue (source : AudioSourceType)
    (state : QuantizerState) (q rate ch : ℕ) (hq : 0 < q) :
    (extractLoop source state q rate ch).1.sample_buffer.length < q := by
  refine extractLoopFuel_residue _ source state q rate ch hq ?_
  have h1 : state.sample_buffer.length ≤ state.sample_buffer.length * q :=
    Nat.le_mul_of_pos_right _ hq
  have h2 : (state.sample_buffer.length + 1) * q =
      state.sample_buffer.length * q + q := Nat.succ_mul _ _
  omega

/-- On a buffer already below one quantum, `extractLoop` is the identity. -/
theorem extractLoop_small (source : AudioSourceType)
    (state : QuantizerState) (q rate ch : ℕ)
    (h : state.sample_buffer.length < q) :
    extractLoop source state q rate ch = (state, []) := by
  unfold extractLoop extractLoopFuel
  rw [show extract_quantum_from_state source state q rate ch = none from
    by unfold extract_quantum_from_state; rw [if_pos h]]

/-- Closed form of `enqueue_ready_quanta` on a Microphone frame. -/
theorem enqueue_eq_mic (ms ss : QuantizerState) (rq : List AudioFrame)
    (qz er ec ts : ℕ) (samples : List ℚ) :
    (FrameQuantizer.mk ms ss rq qz er ec).enqueue_ready_quanta
        .Microphone ts samples =
      FrameQuantizer.mk
        (extractLoop .Microphone
          (QuantizerState.mk (ms.sample_buffer ++ samples)
            (if ms.sample_buffer = [] ∧ ms.samples_processed = 0 then ts
              else ms.current_timestamp)
            ms.samples_processed) qz er ec).1
        ss
        (rq ++ (extractLoop .Microphone
          (QuantizerState.mk (ms.sample_buffer ++ samples)
            (if ms.sample_buffer = [] ∧ ms.samples_processed = 0 then ts
              else ms.current_timestamp)
            ms.samples_processed) qz er ec).2)
        qz er ec := by
  by_cases ha : ms.sample_buffer = [] ∧ ms.samples_processed = 0 <;>
    simp [FrameQuantizer.enqueue_ready_quanta, FrameQuantizer.source_state,
      FrameQuantizer.set_source_state, ha]

/-- Closed form of `enqueue_ready_quanta` on a System frame. -/
theorem enqueue_eq_sys (ms ss : QuantizerState) (rq : List AudioFrame)
    (qz er ec ts : ℕ) (samples : List ℚ) :
    (FrameQuantizer.mk ms ss rq qz er ec).enqueue_ready_quanta
        .System ts samples =
      FrameQuantizer.mk
        ms
        (extractLoop .System
          (QuantizerState.mk (ss.sample_buffer ++ samples)
            (if ss.sample_buffer = [] ∧ ss.samples_processed = 0 then ts
              else ss.current_timestamp)
            ss.samples_processed) qz er ec).1
        (rq ++ (extractLoop .System
          (QuantizerState.mk (ss.sample_buffer ++ samples)
            (if ss.sample_buffer = [] ∧ ss.samples_processed = 0 then ts
              else ss.current_timestamp)
            ss.samples_processed) qz er ec).2)
        qz er ec := by
  by_cases ha : ss.sample_buffer = [] ∧ ss.samples_processed = 0 <;>
    simp [FrameQuantizer.enqueue_ready_quanta, FrameQuantizer.source_state,
      FrameQuantizer.set_source_state, ha]

/-- Behaviour of `enqueue_ready_quanta`: configuration survives, both
buffers stay below one quantum, and the frames appended to the ready queue
account exactly for the buffered and incoming samples. -/
theorem enqueue_spec (ms ss : QuantizerState) (rq : List AudioFrame)
    (qz er ec : ℕ) (source : AudioSourceType) (ts : ℕ) (samples : List ℚ)
    (hq : 0 < qz) (hms : ms.sample_buffer.length < qz)
    (hss : ss.sample_buffer.length < qz) :
    ((FrameQuantizer.mk ms ss rq qz er ec).enqueue_ready_quanta source ts
        samples).quantum_size = qz ∧
    ((FrameQuantizer.mk ms ss rq qz er ec).enqueue_ready_quanta source ts
        samples).expected_sample_rate = er ∧
    ((FrameQuantizer.mk ms ss rq qz er ec).enqueue_ready_quanta source ts
        samples).expected_channels = ec ∧
    ((FrameQuantizer.mk ms ss rq qz er ec).enqueue_ready_quanta source ts
        samples).mic_state.sample_buffer.length < qz ∧
    ((FrameQuantizer.mk ms ss rq qz er ec).enqueue_ready_quanta source ts
        samples).sys_state.sample_buffer.length < qz ∧
    ∃ emitted,
      ((FrameQuantizer.mk ms ss rq qz er ec).enqueue_ready_quanta source ts
        samples).ready_queue = rq ++ emitted ∧
      totalSamples emitted +
          (((FrameQuantizer.mk ms ss rq qz er ec).enqueue_ready_quanta
              source ts samples).mic_state.sample_buffer.length +
            ((FrameQuantizer.mk ms ss rq qz er ec).enqueue_ready_quanta
              source ts samples).sys_state.sample_buffer.length) =
        (ms.sample_buffer.length + ss.sample_buffer.length) +
          samples.length := by
  cases source with
  | Microphone =>
    rw [enqueue_eq_mic]
    have hcons := extractLoop_conserves .Microphone
      (QuantizerState.mk (ms.sample_buffer ++ samples)
        (if ms.sample_buffer = [] ∧ ms.samples_processed = 0 then ts
          else ms.current_timestamp)
        ms.samples_processed) qz er ec
    have hres := extractLoop_residue .Microphone
      (QuantizerState.mk (ms.sample_buffer ++ samples)
        (if ms.sample_buffer = [] ∧ ms.samples_processed = 0 then ts
          else ms.current_timestamp)
        ms.samples_processed) qz er ec hq
    refine ⟨rfl, rfl, rfl, hres, hss, _, rfl, ?_⟩
    simp only [List.length_append] at hcons
    dsimp only
    omega
  | System =>
    rw [enqueue_eq_sys]
    have hcons := extractLoop_conserves .System
      (QuantizerState.mk (ss.sample_buffer ++ samples)
        (if ss.sample_buffer = [] ∧ ss.samples_processed = 0 then ts
          else ss.current_timestamp)
        ss.samples_processed) qz er ec
    have hres := extractLoop_residue .System
      (QuantizerState.mk (ss.sample_buffer ++ samples)
        (if ss.sample_buffer = [] ∧ ss.samples_processed = 0 then ts
          else ss.current_timestamp)
        ss.samples_processed) qz er ec hq
    refine ⟨rfl, rfl, rfl, hms, hres, _, rfl, ?_⟩
    simp only [List.length_append] at hcons
    dsimp only
    omega

/-- `quantStep` on an accepted frame: enqueue, then hand out the entire
ready queue. -/
theorem quantStep_accepted (fq : FrameQuantizer) (f : AudioFrame)
    (hr : f.sample_rate = fq.expected_sample_rate)
    (hc : f.channels = fq.expected_channels) :
    fq.quantStep f =
      ({ fq.enqueue_ready_quanta f.source f.timestamp f.samples with
          ready_queue := [] },
        (fq.enqueue_ready_quanta f.source f.timestamp
          f.samples).ready_queue) := by
  unfold FrameQuantizer.quantStep FrameQuantizer.process
  rw [if_neg (by simp [hr]), if_neg (by simp [hc])]
  cases hqu : (fq.enqueue_ready_quanta f.source f.timestamp
      f.samples).ready_queue with
  | nil => simp [FrameQuantizer.drainAll, hqu]
  | cons g rest => simp [FrameQuantizer.drainAll, hqu]

/-- One accepted round preserves the between-round invariant and conserves
samples. -/
theorem quantStep_spec (ms ss : QuantizerState) (qz er ec : ℕ)
    (f : AudioFrame) (hq : 0 < qz) (hms : ms.sample_buffer.length < qz)
    (hss : ss.sample_buffer.length < qz) (hr : f.sample_rate = er)
    (hc : f.channels = ec) :
    ((FrameQuantizer.mk ms ss [] qz er ec).quantStep f).1.ready_queue
        = [] ∧
    ((FrameQuantizer.mk ms ss [] qz er ec).quantStep f).1.quantum_size
        = qz ∧
    ((FrameQuantizer.mk ms ss [] qz er
        ec).quantStep f).1.expected_sample_rate = er ∧
    ((FrameQuantizer.mk ms ss [] qz er
        ec).quantStep f).1.expected_channels = ec ∧
    ((FrameQuantizer.mk ms ss [] qz er
        ec).quantStep f).1.mic_state.sample_buffer.length < qz ∧
    ((FrameQuantizer.mk ms ss [] qz er
        ec).quantStep f).1.sys_state.sample_buffer.length < qz ∧
    totalSamples ((FrameQuantizer.mk ms ss [] qz er ec).quantStep f).2 +
        (((FrameQuantizer.mk ms ss [] qz er
            ec).quantStep f).1.mic_state.sample_buffer.length +
          ((FrameQuantizer.mk ms ss [] qz er
            ec).quantStep f).1.sys_state.sample_buffer.length) =
      (ms.sample_buffer.length + ss.sample_buffer.length) +
        f.samples.length := by
  obtain ⟨hqz, her, hec, hmic, hsys, emitted, hready, hcount⟩ :=
    enqueue_spec ms ss [] qz er ec f.source f.timestamp f.samples hq hms hss
  rw [quantStep_accepted _ f hr hc]
  simp only [List.nil_append] at hready
  dsimp only
  refine ⟨rfl, hqz, her, hec, hmic, hsys, ?_⟩
  rw [hready]
  exact hcount

/-- Running accepted frames through `process`-plus-drain rounds preserves
the invariant and conserves samples: emitted plus still-buffered equals
previously-buffered plus received. -/
theorem runQuantizer_spec (frames : List AudioFrame) (fq : FrameQuantizer)
    (hq : 0 < fq.quantum_size) (hg : GoodQ fq)
    (hacc : ∀ f ∈ frames, f.sample_rate = fq.expected_sample_rate ∧
      f.channels = fq.expected_channels) :
    GoodQ (fq.runQuantizer frames).1 ∧
      (fq.runQuantizer frames).1.quantum_size = fq.quantum_size ∧
      (fq.runQuantizer frames).1.expected_sample_rate
        = fq.expected_sample_rate ∧
      (fq.runQuantizer frames).1.expected_channels
        = fq.expected_channels ∧
      totalSamples (fq.runQuantizer frames).2 +
          bufLens (fq.runQuantizer frames).1 =
        bufLens fq + totalSamples frames := by
  induction frames generalizing fq with
  | nil =>
    refine ⟨hg, rfl, rfl, rfl, ?_⟩
    simp [FrameQuantizer.runQuantizer, totalSamples]
  | cons f fs ih =>
    obtain ⟨hready, hmsl, hssl⟩ := hg
    obtain ⟨ms, ss, rq, qz, er, ec⟩ := fq
    simp only at hready hmsl hssl hq hacc ⊢
    subst hready
    obtain ⟨hr, hc⟩ := hacc f (by simp)
    obtain ⟨hready', hqz, her, hec, hmic, hsys, hcount⟩ :=
      quantStep_spec ms ss qz er ec f hq hmsl hssl hr hc
    have hgood' : GoodQ ((FrameQuantizer.mk ms ss [] qz er
        ec).quantStep f).1 := by
      refine ⟨hready', ?_, ?_⟩ <;> rw [hqz] <;> assumption
    have hacc' : ∀ g ∈ fs,
        g.sample_rate = ((FrameQuantizer.mk ms ss [] qz er
          ec).quantStep f).1.expected_sample_rate ∧
        g.channels = ((FrameQuantizer.mk ms ss [] qz er
          ec).quantStep f).1.expected_channels := by
      intro g hgmem
      rw [her, hec]
      exact hacc g (by simp [hgmem])
    obtain ⟨ihg, ihqz, iher, ihec, ihcount⟩ :=
      ih ((FrameQuantizer.mk ms ss [] qz er ec).quantStep f).1
        (by rw [hqz]; exact hq) hgood' hacc'
    unfold FrameQuantizer.runQuantizer
    refine ⟨ihg, by rw [ihqz, hqz], by rw [iher, her], by rw [ihec, hec],
      ?_⟩
    rw [totalSamples_append]
    simp only [bufLens] at ihcount hcount ⊢
    simp only [totalSamples, List.map_cons, List.sum_cons] at ihcount hcount ⊢
    omega

/-- Flushing a quantizer in the between-round invariant emits the buffered
samples of both sources, zero-padded by strictly less than one quantum per
source. -/
theorem flush_padding (fq : FrameQuantizer) (hq : 0 < fq.quantum_size)
    (hg : GoodQ fq) :
    ∃ padMic padSys, padMic ≤ fq.quantum_size - 1 ∧
      padSys ≤ fq.quantum_size - 1 ∧
      totalSamples (fq.flush).2 = bufLens fq + padMic + padSys := by
  obtain ⟨hready, hms, hss⟩ := hg
  obtain ⟨ms, ss, rq, qz, er, ec⟩ := fq
  simp only at hready hms hss hq ⊢
  subst hready
  have hes := extractLoop_small .System ss qz er ec hss
  have hem := extractLoop_small .Microphone ms qz er ec hms
  by_cases hsse : ss.sample_buffer = [] <;>
    by_cases hmse : ms.sample_buffer = []
  · refine ⟨0, 0, by omega, by omega, ?_⟩
    simp [FrameQuantizer.flush, FrameQuantizer.flush_source,
      FrameQuantizer.source_state, FrameQuantizer.set_source_state,
      hes, hem, hsse, hmse, totalSamples, bufLens]
  · have hmlen : 1 ≤ ms.sample_buffer.length :=
      List.length_pos.mpr hmse
    refine ⟨qz - ms.sample_buffer.length, 0, by omega, by omega, ?_⟩
    simp [FrameQuantizer.flush, FrameQuantizer.flush_source,
      FrameQuantizer.source_state, FrameQuantizer.set_source_state,
      hes, hem, hsse, hmse, totalSamples, bufLens]
    omega
  · have hslen : 1 ≤ ss.sample_buffer.length :=
      List.length_pos.mpr hsse
    refine ⟨0, qz - ss.sample_buffer.length, by omega, by omega, ?_⟩
    simp [FrameQuantizer.flush, FrameQuantizer.flush_source,
      FrameQuantizer.source_state, FrameQuantizer.set_source_state,
      hes, hem, hsse, hmse, totalSamples, bufLens]
    omega
  · have hmlen : 1 ≤ ms.sample_buffer.length :=
      List.length_pos.mpr hmse
    have hslen : 1 ≤ ss.sample_buffer.length :=
      List.length_pos.mpr hsse
    refine ⟨qz - ms.sample_buffer.length, qz - ss.sample_buffer.length,
      by omega, by omega, ?_⟩
    simp [FrameQuantizer.flush, FrameQuantizer.flush_source,
      FrameQuantizer.source_state, FrameQuantizer.set_source_state,
      hes, hem, hsse, hmse, totalSamples, bufLens]
    omega

/-- C4 amended: for sequences of frames whose format matches the quantizer's
expectation, the total number of samples emitted through process-plus-drain
rounds and the final flush equals the total received, up to the zero-padding
of the final flush, which is at most quantum-1 samples per source.  (Frames
with a mismatching sample rate or channel count are silently dropped by
`process`, which is what refutes the unamended claim.) -/
theorem quantizer_conservation (q rate ch : ℕ) (hq : 0 < q)
    (frames : List AudioFrame)
    (hacc : ∀ f ∈ frames, f.sample_rate = rate ∧ f.channels = ch) :
    ∃ padMic padSys, padMic ≤ q - 1 ∧ padSys ≤ q - 1 ∧
      totalSamples ((FrameQuantizer.with_quantum_size q rate
          ch).runQuantizer frames).2 +
        totalSamples (((FrameQuantizer.with_quantum_size q rate
          ch).runQuantizer frames).1.flush).2 =
        totalSamples frames + padMic + padSys := by
  have h0 : GoodQ (FrameQuantizer.with_quantum_size q rate ch) := by
    refine ⟨rfl, ?_, ?_⟩ <;>
      simpa [FrameQuantizer.with_quantum_size, QuantizerState.empty] using hq
  obtain ⟨hg, hqz, her, hec, hcount⟩ :=
    runQuantizer_spec frames (FrameQuantizer.with_quantum_size q rate ch)
      hq h0 hacc
  obtain ⟨pm, ps, hpm, hps, hflush⟩ :=
    flush_padding ((FrameQuantizer.with_quantum_size q rate
      ch).runQuantizer frames).1 (by rw [hqz]; exact hq) hg
  rw [hqz] at hpm hps
  refine ⟨pm, ps, hpm, hps, ?_⟩
  have hbuf0 : bufLens (FrameQuantizer.with_quantum_size q rate ch) = 0 :=
    rfl
  omega

/-- Witness for C4 amended: quantum 8, one 3-sample Microphone frame. -/
theorem quantizer_conservation_witness :
    ∃ padMic padSys, padMic ≤ 8 - 1 ∧ padSys ≤ 8 - 1 ∧
      totalSamples ((FrameQuantizer.with_quantum_size 8 48000
          1).runQuantizer
          [AudioFrame.mk .Microphone [1, 1, 1] 48000 1 0]).2 +
        totalSamples (((FrameQuantizer.with_quantum_size 8 48000
          1).runQuantizer
          [AudioFrame.mk .Microphone [1, 1, 1] 48000 1 0]).1.flush).2 =
        totalSamples [AudioFrame.mk .Microphone [1, 1, 1] 48000 1 0] +
          padMic + padSys :=
  quantizer_conservation 8 48000 1 (by decide)
    [AudioFrame.mk .Microphone [1, 1, 1] 48000 1 0] (by decide)

/-- C7: a single 960-sample mono 48 kHz frame at timestamp 1,000,000 ns fed
to `for_webrtc()` yields a 480-sample frame at 1,000,000 from `process`, a
480-sample frame exactly 10,000,000 ns later from `drain_ready`, and none
from the next `drain_ready`. -/
theorem quantizer_webrtc_split :
    (((FrameQuantizer.for_webrtc.process
        (AudioFrame.mk .Microphone (List.replicate 960 1) 48000 1
          1000000)).2.map
      (fun g => (g.samples.length, g.timestamp))) = some (480, 1000000)) ∧
    ((((FrameQuantizer.for_webrtc.process
        (AudioFrame.mk .Microphone (List.replicate 960 1) 48000 1
          1000000)).1.drain_ready).2.map
      (fun g => (g.samples.length, g.timestamp))) =
        some (480, 1000000 + 10000000)) ∧
    ((((FrameQuantizer.for_webrtc.process
        (AudioFrame.mk .Microphone (List.replicate 960 1) 48000 1
          1000000)).1.drain_ready).1.drain_ready).2 = none) := by
  refine ⟨by decide, by decide, by decide⟩

/-- C4 counterexample: the claim fails as stated because a frame whose
format disagrees with the quantizer's expectation is rejected and its
samples are dropped.  A 480-sample frame at 16 kHz fed to `for_webrtc()`
(which expects 48 kHz) yields zero emitted samples through process, drain
and flush, while 480 samples were received — no padding accounting can
reconcile the two totals. -/
theorem quantizer_conservation_cex :
    totalSamples (FrameQuantizer.for_webrtc.runQuantizer
        [AudioFrame.mk .Microphone (List.replicate 480 1) 16000 1 0]).2 +
      totalSamples ((FrameQuantizer.for_webrtc.runQuantizer
        [AudioFrame.mk .Microphone (List.replicate 480 1) 16000 1
          0]).1.flush).2 = 0 ∧
    totalSamples [AudioFrame.mk .Microphone (List.replicate 480 1) 16000 1
        0] = 480 ∧
    ¬ ∃ padMic padSys, padMic ≤ 479 ∧ padSys ≤ 479 ∧
      totalSamples (FrameQuantizer.for_webrtc.runQuantizer
          [AudioFrame.mk .Microphone (List.replicate 480 1) 16000 1 0]).2 +
        totalSamples ((FrameQuantizer.for_webrtc.runQuantizer
          [AudioFrame.mk .Microphone (List.replicate 480 1) 16000 1
            0]).1.flush).2 =
        totalSamples [AudioFrame.mk .Microphone (List.replicate 480 1)
          16000 1 0] + padMic + padSys := by
  have h0 : totalSamples (FrameQuantizer.for_webrtc.runQuantizer
      [AudioFrame.mk .Microphone (List.replicate 480 1) 16000 1 0]).2 +
      totalSamples ((FrameQuantizer.for_webrtc.runQuantizer
        [AudioFrame.mk .Microphone (List.replicate 480 1) 16000 1
          0]).1.flush).2 = 0 := by decide
  have h1 : totalSamples [AudioFrame.mk .Microphone
      (List.replicate 480 1) 16000 1 0] = 480 := by decide
  refine ⟨h0, h1, ?_⟩
  rintro ⟨pm, ps, _, _, heq⟩
  rw [h0, h1] at heq
  omega

/-- Mirrors `struct AudioProcessingConfig` from `src/config.rs`.  The
`sample_format` string field is omitted: no claim under study depends on
it.  `aec_stream_delay_ms` and `aec_max_delay_ms` are `i32`. -/
structure AudioProcessingConfig where
  sample_rate : ℕ
  channels : ℕ
  enable_aec : Bool
  enable_ns : Bool
  aec_stream_delay_ms : ℤ
  aec_auto_delay_tuning : Bool
  aec_max_delay_ms : ℤ
  deriving DecidableEq, Repr

/-- Rust `i32::clamp(lo, hi)` for `lo ≤ hi` (the Rust method panics when
`lo > hi`; every call site in the embedded code satisfies `lo ≤ hi`, which
the invariant proofs establish). -/
def intClamp (x lo hi : ℤ) : ℤ := min hi (max lo x)

/-- Mirrors the state of `struct AecProcessor` (`src/processors/aec.rs`
12-34).  The `apm: Option<Processor>` external handle is abstracted to the
flag `hasApm`; the tune/rollback/freeze event counters live in the shared
`RuntimeStats` in the source (updated via `stats.update` inside the tuner)
and are carried here as plain fields.  ERLE values (`f64`) are rationals. -/
structure AecState where
  hasApm : Bool
  config : AudioProcessingConfig
  applied_delay_ms : ℤ
  tuner_last_erle : Option ℚ
  tuner_erle_ema : Option ℚ
  tuner_best_erle : Option ℚ
  tuner_best_delay_ms : ℤ
  tuner_direction : ℤ
  tuner_step_ms : ℤ
  tuner_interval_frames : ℕ
  tuner_max_delay_ms : ℤ
  tuner_frozen : Bool
  tuner_stable_windows : ℕ
  last_system_active_frame : Option ℕ
  sys_frames_seen : ℕ
  mic_frames_seen : ℕ
  skipped_inactive_mic : ℕ
  skipped_inactive_system : ℕ
  tune_events : ℕ
  rollback_events : ℕ
  freeze_events : ℕ
  deriving DecidableEq, Repr

/-- Mirrors `AecProcessor::new` (aec.rs 40-72).  `apmCreated` stands for the
success of the external `Processor::new(48_000)` call made when AEC is
enabled. -/
def AecProcessor.new (config : AudioProcessingConfig) (apmCreated : Bool) :
    AecState :=
  let initial_delay_ms := max config.aec_stream_delay_ms 0
  { hasApm := config.enable_aec && apmCreated
    config := config
    applied_delay_ms := initial_delay_ms
    tuner_last_erle := none
    tuner_erle_ema := none
    tuner_best_erle := none
    tuner_best_delay_ms := initial_delay_ms
    tuner_direction := 1
    tuner_step_ms := 5
    tuner_interval_frames := 50
    tuner_max_delay_ms := intClamp config.aec_max_delay_ms 20 1000
    tuner_frozen := false
    tuner_stable_windows := 0
    last_system_active_frame := none
    sys_frames_seen := 0
    mic_frames_seen := 0
    skipped_inactive_mic := 0
    skipped_inactive_system := 0
    tune_events := 0
    rollback_events := 0
    freeze_events := 0 }

/-- Mirrors `AecProcessor::frame_is_active` (aec.rs 143-147) with
`SIGNAL_ACTIVITY_THRESHOLD = 1.0e-4`. -/
def frame_is_active (samples : List ℚ) : Bool :=
  samples.any fun s => decide ((1 : ℚ)/10000 ≤ |s|)

/-- Step 6 of the tuner (aec.rs 230-239): adapt step size and direction
from the raw (not smoothed) ERLE trend. -/
def tuneAdaptStep (s : AecState) (erle : ℚ) : AecState :=
  match s.tuner_last_erle with
  | some last_erle =>
    if erle + 2/10 < last_erle then
      { s with tuner_direction := -s.tuner_direction
               tuner_step_ms := max (s.tuner_step_ms - 1) 2 }
    else if last_erle + 2/10 < erle then
      { s with tuner_step_ms := min (s.tuner_step_ms + 1) 8 }
    else s
  | none => s

/-- Steps 6 and 7 of the tuner (aec.rs 230-254): adapt step and direction
from the raw ERLE trend, then propose the next delay clamped to a ±40 ms
window around the best-known delay. -/
def tuneAdaptAndPropose (s : AecState) (erle : ℚ) : AecState × Bool :=
  let s := tuneAdaptStep s erle
  let min_delay := max (s.tuner_best_delay_ms - 40) 0
  let max_delay := min (s.tuner_best_delay_ms + 40) s.tuner_max_delay_ms
  let next_delay := intClamp
    (s.applied_delay_ms + s.tuner_direction * s.tuner_step_ms)
    min_delay max_delay
  let s := { s with tuner_last_erle := some erle }
  if next_delay = s.applied_delay_ms then
    ({ s with tuner_direction := -s.tuner_direction }, false)
  else
    ({ s with applied_delay_ms := next_delay
              tune_events := s.tune_events + 1 }, true)

/-- Step 5 of the tuner (aec.rs 219-228): snap back to the best-known delay
when the smoothed quality dropped a lot, then fall through to step
adaptation. -/
def tuneRollback (s : AecState) (erle ema : ℚ) : AecState × Bool :=
  match s.tuner_best_erle with
  | some best =>
    if ema < best - 1 ∧ s.applied_delay_ms ≠ s.tuner_best_delay_ms then
      ({ s with applied_delay_ms := s.tuner_best_delay_ms
                tuner_direction := -s.tuner_direction
                tuner_step_ms := max (s.tuner_step_ms - 1) 2
                rollback_events := s.rollback_events + 1 }, true)
    else tuneAdaptAndPropose s erle
  | none => tuneAdaptAndPropose s erle

/-- Step 4 of the tuner (aec.rs 203-217): count stable high-ERLE windows
and freeze on the best delay after eight of them, else fall through to
rollback. -/
def tuneFreezeCheck (s : AecState) (erle ema : ℚ) : AecState × Bool :=
  match s.tuner_best_erle with
  | some best =>
    let s :=
      if 35/10 ≤ best ∧ |ema - best| ≤ 1/10 then
        { s with tuner_stable_windows := s.tuner_stable_windows + 1 }
      else { s with tuner_stable_windows := 0 }
    if 8 ≤ s.tuner_stable_windows then
      ({ s with applied_delay_ms := s.tuner_best_delay_ms
                tuner_frozen := true
                freeze_events := s.freeze_events + 1 }, true)
    else tuneRollback s erle ema
  | none => tuneRollback s erle ema

/-- Mirrors `AecProcessor::tune_delay_on_the_fly` (aec.rs 182-255),
returning the updated state together with the "delay changed" flag: reject
unstable snapshots, smooth the ERLE, track the best EMA, then the freeze /
rollback / adapt-and-propose cascade of the helper stages above. -/
def tune_delay_on_the_fly (s : AecState) (erle : ℚ)
    (delay_inst_ms : Option ℕ) : AecState × Bool :=
  let unstable : Bool :=
    match delay_inst_ms with
    | some d => decide (250 ≤ d) && decide (erle < 1)
    | none => false
  if unstable then (s, false)
  else
    let ema :=
      match s.tuner_erle_ema with
      | some prev => prev * (7/10) + erle * (3/10)
      | none => erle
    let s := { s with tuner_erle_ema := some ema }
    let s :=
      if (s.tuner_best_erle.map fun best =>
          decide (best + 1/10 < ema)).getD true then
        { s with tuner_best_erle := some ema
                 tuner_best_delay_ms := s.applied_delay_ms
                 tuner_stable_windows := 0 }
      else s
    tuneFreezeCheck s erle ema

/-- External behaviour of the WebRTC audio-processing module during one
`process_frame` call: whether the render/capture calls fail (failures are
logged and swallowed by the processor), the content the capture call leaves
in the frame's sample buffer, and the stats snapshot. -/
structure ApmOracle where
  render_fails : Bool
  capture_fails : Bool
  captureSamples : List ℚ
  statsErle : Option ℚ
  statsDelay : Option ℕ
  deriving DecidableEq, Repr

/-- Mirrors `AecProcessor::process_frame` (aec.rs 74-141).  The `Result`
return type is kept: every branch of the source produces `Ok`, including
those that observe a render/capture error from the module (the error is
printed and dropped).  When the tuner commits a change the source reapplies
the module config (`set_config`), an external effect with no state here. -/
def AecProcessor.process_frame (s : AecState) (frame : AudioFrame)
    (o : ApmOracle) : Except String (AecState × Option AudioFrame) :=
  match frame.source with
  | .System =>
    let s := { s with sys_frames_seen := s.sys_frames_seen + 1 }
    let s :=
      if frame_is_active frame.samples then
        { s with last_system_active_frame := some s.sys_frames_seen }
      else s
    .ok (s, none)
  | .Microphone =>
    let s := { s with mic_frames_seen := s.mic_frames_seen + 1 }
    let mic_active := frame_is_active frame.samples
    let sys_active_recently :=
      (s.last_system_active_frame.map fun last =>
        decide (s.sys_frames_seen - last ≤ 30)).getD false
    let should_tune := s.config.aec_auto_delay_tuning && !s.tuner_frozen &&
      mic_active && sys_active_recently &&
      decide (s.mic_frames_seen % s.tuner_interval_frames = 0)
    let tune_tick := s.config.aec_auto_delay_tuning && !s.tuner_frozen &&
      decide (s.mic_frames_seen % s.tuner_interval_frames = 0)
    let s :=
      if tune_tick then
        let s :=
          if !mic_active then
            { s with skipped_inactive_mic := s.skipped_inactive_mic + 1 }
          else s
        if !sys_active_recently then
          { s with skipped_inactive_system := s.skipped_inactive_system + 1 }
        else s
      else s
    let erle_snapshot : Option ℚ :=
      if s.hasApm && should_tune then o.statsErle else none
    let delay_snapshot : Option ℕ :=
      if s.hasApm && should_tune then o.statsDelay else none
    let newSamples := if s.hasApm then o.captureSamples else frame.samples
    let s :=
      if should_tune then
        match erle_snapshot with
        | some erle => (tune_delay_on_the_fly s erle delay_snapshot).1
        | none => s
      else s
    .ok (s, some { frame with samples := newSamples })

/-- One frame together with the module behaviour observed while processing
it. -/
structure AecInput where
  frame : AudioFrame
  oracle : ApmOracle
  deriving DecidableEq, Repr

/-- State reached after one `process_frame` call (the error branch is
unreachable, as `aec_process_never_errors` shows). -/
def AecProcessor.stepState (s : AecState) (i : AecInput) : AecState :=
  match AecProcessor.process_frame s i.frame i.oracle with
  | .ok r => r.1
  | .error _ => s

/-- State reached after a whole run of frames. -/
def AecProcessor.processRun (s : AecState) (inputs : List AecInput) :
    AecState :=
  inputs.foldl AecProcessor.stepState s

/-- The test configuration of `src/processors/aec.rs` (tests, lines
314-325) with auto-tuning on and AEC off, giving the tuner start state
`applied_delay_ms = 10, step = 5, direction = +1` with no ERLE history. -/
def aecTestConfig : AudioProcessingConfig :=
  { sample_rate := 16000, channels := 1, enable_aec := false
    enable_ns := false, aec_stream_delay_ms := 10
    aec_auto_delay_tuning := true, aec_max_delay_ms := 140 }

/-- C6: from `applied_delay_ms = 10, step = 5, direction = +1` and no prior
ERLE history, one tuner invocation with `erle = 2.0` and reported module
delay 10 commits `applied_delay_ms = 15`, reports a change, and leaves
`tune_events = 1`. -/
theorem tuner_single_step :
    (tune_delay_on_the_fly (AecProcessor.new aecTestConfig false) 2
        (some 10)).1.applied_delay_ms = 15 ∧
      (tune_delay_on_the_fly (AecProcessor.new aecTestConfig false) 2
        (some 10)).1.tune_events = 1 ∧
      (tune_delay_on_the_fly (AecProcessor.new aecTestConfig false) 2
        (some 10)).2 = true := by
  norm_num [tune_delay_on_the_fly, tuneFreezeCheck, tuneRollback,
    tuneAdaptAndPropose, tuneAdaptStep, AecProcessor.new, aecTestConfig,
    intClamp]

/-- C8: `process_frame` never returns an error, whatever the module does:
System frames come back as emit-none, Microphone frames always come back as
an emitted frame differing at most in its samples (in-place processing),
even when the module reports render or capture errors. -/
theorem aec_process_never_errors (s : AecState) (frame : AudioFrame)
    (o : ApmOracle) :
    ∃ s' out, AecProcessor.process_frame s frame o = .ok (s', out) ∧
      (frame.source = .System → out = none) ∧
      (frame.source = .Microphone → ∃ g, out = some g ∧
        g.source = .Microphone ∧ g.sample_rate = frame.sample_rate ∧
        g.channels = frame.channels ∧ g.timestamp = frame.timestamp) := by
  obtain ⟨src, samples, rate, ch, ts⟩ := frame
  cases src with
  | System =>
    refine ⟨_, _, rfl, ?_, ?_⟩
    · intro _
      rfl
    · intro h
      cases h
  | Microphone =>
    refine ⟨_, _, rfl, ?_, ?_⟩
    · intro h
      cases h
    · intro _
      exact ⟨_, rfl, rfl, rfl, rfl, rfl⟩

/-- Witness for C8 at a concrete state, System frame and failing module. -/
theorem aec_process_never_errors_witness :
    ∃ s' out,
      AecProcessor.process_frame (AecProcessor.new aecTestConfig false)
        (AudioFrame.mk .System [1] 48000 1 0)
        (ApmOracle.mk true true [] none none) = .ok (s', out) ∧
      ((AudioFrame.mk .System [1] 48000 1 0).source = .System →
        out = none) ∧
      ((AudioFrame.mk .System [1] 48000 1 0).source = .Microphone →
        ∃ g, out = some g ∧ g.source = .Microphone ∧
          g.sample_rate = (AudioFrame.mk .System [1] 48000 1
            0).sample_rate ∧
          g.channels = (AudioFrame.mk .System [1] 48000 1 0).channels ∧
          g.timestamp = (AudioFrame.mk .System [1] 48000 1 0).timestamp) :=
  aec_process_never_errors (AecProcessor.new aecTestConfig false)
    (AudioFrame.mk .System [1] 48000 1 0)
    (ApmOracle.mk true true [] none none)

/-- Tuner delay invariant: the applied and best-known delays both lie in
`[0, max_delay_ms]`. -/
def TunerInv (s : AecState) : Prop :=
  0 ≤ s.applied_delay_ms ∧ s.applied_delay_ms ≤ s.tuner_max_delay_ms ∧
    0 ≤ s.tuner_best_delay_ms ∧
    s.tuner_best_delay_ms ≤ s.tuner_max_delay_ms

/-- Step adaptation does not move any of the delay fields. -/
theorem tuneAdaptStep_fields (s : AecState) (erle : ℚ) :
    (tuneAdaptStep s erle).applied_delay_ms = s.applied_delay_ms ∧
      (tuneAdaptStep s erle).tuner_best_delay_ms = s.tuner_best_delay_ms ∧
      (tuneAdaptStep s erle).tuner_max_delay_ms = s.tuner_max_delay_ms := by
  unfold tuneAdaptStep
  rcases h : s.tuner_last_erle with _ | last
  · exact ⟨rfl, rfl, rfl⟩
  · dsimp only
    split_ifs <;> exact ⟨rfl, rfl, rfl⟩

/-- The propose step keeps the tuner delay invariant: the clamp window
`[max(best-40,0), min(best+40,max)]` sits inside `[0, max]`. -/
theorem tuneAdaptAndPropose_inv (s : AecState) (erle : ℚ)
    (h : TunerInv s) : TunerInv (tuneAdaptAndPropose s erle).1 := by
  obtain ⟨f1, f2, f3⟩ := tuneAdaptStep_fields s erle
  obtain ⟨h1, h2, h3, h4⟩ := h
  unfold tuneAdaptAndPropose intClamp TunerInv
  dsimp only
  split_ifs with hne <;> refine ⟨?_, ?_, ?_, ?_⟩ <;> dsimp only <;> omega

/-- The rollback step keeps the tuner delay invariant. -/
theorem tuneRollback_inv (s : AecState) (erle ema : ℚ)
    (h : TunerInv s) : TunerInv (tuneRollback s erle ema).1 := by
  obtain ⟨h1, h2, h3, h4⟩ := h
  unfold tuneRollback
  rcases hbe : s.tuner_best_erle with _ | best
  · exact tuneAdaptAndPropose_inv s erle ⟨h1, h2, h3, h4⟩
  · dsimp only
    split_ifs with hc
    · exact ⟨h3, h4, h3, h4⟩
    · exact tuneAdaptAndPropose_inv s erle ⟨h1, h2, h3, h4⟩

/-- The freeze check keeps the tuner delay invariant. -/
theorem tuneFreezeCheck_inv (s : AecState) (erle ema : ℚ)
    (h : TunerInv s) : TunerInv (tuneFreezeCheck s erle ema).1 := by
  obtain ⟨h1, h2, h3, h4⟩ := h
  unfold tuneFreezeCheck
  rcases hbe : s.tuner_best_erle with _ | best
  · exact tuneRollback_inv s erle ema ⟨h1, h2, h3, h4⟩
  · dsimp only
    split_ifs with hstable hfreeze hfreeze
    · exact ⟨h3, h4, h3, h4⟩
    · exact tuneRollback_inv _ erle ema ⟨h1, h2, h3, h4⟩
    · exact ⟨h3, h4, h3, h4⟩
    · exact tuneRollback_inv _ erle ema ⟨h1, h2, h3, h4⟩

/-- A whole tuner invocation keeps the tuner delay invariant. -/
theorem tune_inv (s : AecState) (erle : ℚ) (delay_inst_ms : Option ℕ)
    (h : TunerInv s) : TunerInv (tune_delay_on_the_fly s erle
      delay_inst_ms).1 := by
  obtain ⟨h1, h2, h3, h4⟩ := h
  unfold tune_delay_on_the_fly
  dsimp only
  split
  · exact ⟨h1, h2, h3, h4⟩
  · split_ifs with hbest
    · exact tuneFreezeCheck_inv _ erle _ ⟨h1, h2, h1, h2⟩
    · exact tuneFreezeCheck_inv _ erle _ ⟨h1, h2, h3, h4⟩

/-- One processed frame keeps the tuner delay invariant. -/
theorem stepState_inv (s : AecState) (i : AecInput) (h : TunerInv s) :
    TunerInv (AecProcessor.stepState s i) := by
  obtain ⟨⟨src, samples, rate, ch, ts⟩, o⟩ := i
  cases src with
  | System =>
    simp only [AecProcessor.stepState, AecProcessor.process_frame]
    split <;> exact h
  | Microphone =>
    simp only [AecProcessor.stepState, AecProcessor.process_frame]
    split_ifs <;> (try split) <;>
      first
        | exact h
        | exact tune_inv _ _ _ h

/-- A whole run keeps the tuner delay invariant. -/
theorem processRun_inv (inputs : List AecInput) (s : AecState)
    (h : TunerInv s) : TunerInv (AecProcessor.processRun s inputs) := by
  induction inputs generalizing s with
  | nil => exact h
  | cons i is ih => exact ih _ (stepState_inv s i h)

/-- Construction establishes the invariant exactly when the clamped initial
stream delay fits under the clamped maximum delay. -/
theorem new_inv (cfg : AudioProcessingConfig) (apmCreated : Bool)
    (h : max cfg.aec_stream_delay_ms 0 ≤
      intClamp cfg.aec_max_delay_ms 20 1000) :
    TunerInv (AecProcessor.new cfg apmCreated) :=
  ⟨le_max_right _ _, h, le_max_right _ _, h⟩

/-- C1 counterexample: the claim fails as stated.  With
`aec_stream_delay_ms = 30` and `aec_max_delay_ms = 10` (clamped to 20), the
constructor leaves `applied_delay_ms = 30 > 20 = max_delay_ms`: `new` never
clamps the initial delay against the maximum. -/
theorem aec_delay_interval_cex :
    (AecProcessor.new (AudioProcessingConfig.mk 48000 1 true false 30 true
      10) true).tuner_max_delay_ms = 20 ∧
    (AecProcessor.new (AudioProcessingConfig.mk 48000 1 true false 30 true
      10) true).applied_delay_ms = 30 ∧
    ¬ ((AecProcessor.new (AudioProcessingConfig.mk 48000 1 true false 30
          true 10) true).applied_delay_ms ≤
        (AecProcessor.new (AudioProcessingConfig.mk 48000 1 true false 30
          true 10) true).tuner_max_delay_ms) := by
  refine ⟨by decide, by decide, by decide⟩

/-- C1 amended: at every point in a run — right after construction (empty
run) and after every processed frame — `applied_delay_ms ∈ [0,
max_delay_ms]`, PROVIDED the configured initial delay, clamped to ≥ 0, does
not exceed the clamped `max_delay_ms` (forced: the constructor copies the
initial delay without clamping it against the maximum). -/
theorem aec_delay_interval (cfg : AudioProcessingConfig)
    (apmCreated : Bool) (inputs : List AecInput)
    (h : max cfg.aec_stream_delay_ms 0 ≤
      intClamp cfg.aec_max_delay_ms 20 1000) :
    0 ≤ (AecProcessor.processRun (AecProcessor.new cfg apmCreated)
        inputs).applied_delay_ms ∧
      (AecProcessor.processRun (AecProcessor.new cfg apmCreated)
          inputs).applied_delay_ms ≤
        (AecProcessor.processRun (AecProcessor.new cfg apmCreated)
          inputs).tuner_max_delay_ms := by
  obtain ⟨h1, h2, _, _⟩ :=
    processRun_inv inputs _ (new_inv cfg apmCreated h)
  exact ⟨h1, h2⟩

/-- Witness for C1 amended: the test configuration (delay 10 ≤ max 140) and
one Microphone frame. -/
theorem aec_delay_interval_witness :
    0 ≤ (AecProcessor.processRun (AecProcessor.new aecTestConfig false)
        [AecInput.mk (AudioFrame.mk .Microphone [1] 48000 1 0)
          (ApmOracle.mk false false [] none none)]).applied_delay_ms ∧
      (AecProcessor.processRun (AecProcessor.new aecTestConfig false)
          [AecInput.mk (AudioFrame.mk .Microphone [1] 48000 1 0)
            (ApmOracle.mk false false [] none none)]).applied_delay_ms ≤
        (AecProcessor.processRun (AecProcessor.new aecTestConfig false)
          [AecInput.mk (AudioFrame.mk .Microphone [1] 48000 1 0)
            (ApmOracle.mk false false [] none none)]).tuner_max_delay_ms :=
  aec_delay_interval aecTestConfig false
    [AecInput.mk (AudioFrame.mk .Microphone [1] 48000 1 0)
      (ApmOracle.mk false false [] none none)] (by decide)

/-- Once frozen, one processed frame moves neither the applied delay, nor
the skip counters, nor the frozen flag. -/
theorem stepState_frozen (s : AecState) (i : AecInput)
    (h : s.tuner_frozen = true) :
    (AecProcessor.stepState s i).applied_delay_ms = s.applied_delay_ms ∧
      (AecProcessor.stepState s i).skipped_inactive_mic
        = s.skipped_inactive_mic ∧
      (AecProcessor.stepState s i).skipped_inactive_system
        = s.skipped_inactive_system ∧
      (AecProcessor.stepState s i).tuner_frozen = true := by
  obtain ⟨⟨src, samples, rate, ch, ts⟩, o⟩ := i
  cases src with
  | System =>
    simp only [AecProcessor.stepState, AecProcessor.process_frame]
    split <;> exact ⟨rfl, rfl, rfl, h⟩
  | Microphone =>
    simp [AecProcessor.stepState, AecProcessor.process_frame, h]

/-- C5: in any run with no reset, once the tuner is frozen the applied
delay and both skip counters never change again, and the tuner stays
frozen: ticks are skipped entirely while frozen. -/
theorem aec_frozen_invariant (s : AecState) (inputs : List AecInput)
    (h : s.tuner_frozen = true) :
    (AecProcessor.processRun s inputs).applied_delay_ms
        = s.applied_delay_ms ∧
      (AecProcessor.processRun s inputs).skipped_inactive_mic
        = s.skipped_inactive_mic ∧
      (AecProcessor.processRun s inputs).skipped_inactive_system
        = s.skipped_inactive_system ∧
      (AecProcessor.processRun s inputs).tuner_frozen = true := by
  induction inputs generalizing s with
  | nil => exact ⟨rfl, rfl, rfl, h⟩
  | cons i is ih =>
    obtain ⟨h1, h2, h3, h4⟩ := stepState_frozen s i h
    obtain ⟨g1, g2, g3, g4⟩ := ih (AecProcessor.stepState s i) h4
    exact ⟨g1.trans h1, g2.trans h2, g3.trans h3, g4⟩

/-- Witness for C5: a concretely frozen state processing one Microphone
frame and one System frame. -/
theorem aec_frozen_invariant_witness :
    (AecProcessor.processRun
        { AecProcessor.new aecTestConfig false with tuner_frozen := true }
        [AecInput.mk (AudioFrame.mk .Microphone [1] 48000 1 0)
            (ApmOracle.mk false false [] none none),
          AecInput.mk (AudioFrame.mk .System [1] 48000 1 0)
            (ApmOracle.mk false false [] none none)]).applied_delay_ms
        = { AecProcessor.new aecTestConfig false with
            tuner_frozen := true }.applied_delay_ms ∧
      (AecProcessor.processRun
        { AecProcessor.new aecTestConfig false with tuner_frozen := true }
        [AecInput.mk (AudioFrame.mk .Microphone [1] 48000 1 0)
            (ApmOracle.mk false false [] none none),
          AecInput.mk (AudioFrame.mk .System [1] 48000 1 0)
            (ApmOracle.mk false false [] none none)]).skipped_inactive_mic
        = { AecProcessor.new aecTestConfig false with
            tuner_frozen := true }.skipped_inactive_mic ∧
      (AecProcessor.processRun
        { AecProcessor.new aecTestConfig false with tuner_frozen := true }
        [AecInput.mk (AudioFrame.mk .Microphone [1] 48000 1 0)
            (ApmOracle.mk false false [] none none),
          AecInput.mk (AudioFrame.mk .System [1] 48000 1 0)
            (ApmOracle.mk false false []
              none none)]).skipped_inactive_system
        = { AecProcessor.new aecTestConfig false with
            tuner_frozen := true }.skipped_inactive_system ∧
      (AecProcessor.processRun
        { AecProcessor.new aecTestConfig false with tuner_frozen := true }
        [AecInput.mk (AudioFrame.mk .Microphone [1] 48000 1 0)
            (ApmOracle.mk false false [] none none),
          AecInput.mk (AudioFrame.mk .System [1] 48000 1 0)
            (ApmOracle.mk false false [] none none)]).tuner_frozen
        = true :=
  aec_frozen_invariant
    { AecProcessor.new aecTestConfig false with tuner_frozen := true }
    [AecInput.mk (AudioFrame.mk .Microphone [1] 48000 1 0)
        (ApmOracle.mk false false [] none none),
      AecInput.mk (AudioFrame.mk .System [1] 48000 1 0)
        (ApmOracle.mk false false [] none none)] rfl

/-- One invocation of the external rubato FFT resampler
(`resampler.process` in `src/processors/resample.rs`), abstracted as a
function from the consumed interleaved chunk to the produced interleaved
output samples (the source deinterleaves, resamples and reinterleaves; the
resampler itself is an out-of-repo collaborator). -/
def ResamplerFn := List ℚ → List ℚ

/-- Mirrors `struct StreamState` from `src/processors/resample.rs` 27-35. -/
structure StreamState where
  resampler : Option ResamplerFn
  source_rate : ℕ
  input_buffer : List ℚ
  output_queue : List ℚ
  current_timestamp : ℕ
  buffered_samples : ℕ
  ready_queue : List AudioFrame

/-- Mirrors `StreamState::new` (resample.rs 38-70): the FFT resampler is
instantiated only when the rates differ; `mkResampler` stands for the
result of the fallible external `Fft::new` construction (`none` on
failure, which the source logs and treats as passthrough). -/
def StreamState.new (mkResampler : Option ResamplerFn)
    (source_rate target_rate target_channels chunk_size : ℕ) : StreamState :=
  { resampler := if source_rate ≠ target_rate then mkResampler else none
    source_rate := source_rate
    input_buffer := []
    output_queue := []
    current_timestamp := 0
    buffered_samples := 0
    ready_queue := [] }

/-- Mirrors `struct ResampleProcessor` (resample.rs 82-93); `mix_buffer` is
a reusable allocation with no semantic content and is omitted. -/
structure ResampleProcessor where
  mic_state : StreamState
  sys_state : StreamState
  chunk_size : ℕ
  target_rate : ℕ
  target_channels : ℕ
  source_type : AudioSourceType
  last_processed_source : AudioSourceType

/-- Mirrors `ResampleProcessor::new` (resample.rs 96-114) with
`chunk_size = 1024`; both per-source states receive the same abstract
resampler constructor outcome. -/
def ResampleProcessor.new (source_rate target_rate target_channels : ℕ)
    (source_type : AudioSourceType) (mkResampler : Option ResamplerFn) :
    ResampleProcessor :=
  { mic_state := StreamState.new mkResampler source_rate target_rate
      target_channels 1024
    sys_state := StreamState.new mkResampler source_rate target_rate
      target_channels 1024
    chunk_size := 1024
    target_rate := target_rate
    target_channels := target_channels
    source_type := source_type
    last_processed_source := source_type }

/-- Read side of `ResampleProcessor::state_mut` (resample.rs 120-125). -/
def ResampleProcessor.state_sel (p : ResampleProcessor) :
    AudioSourceType → StreamState
  | .Microphone => p.mic_state
  | .System => p.sys_state

/-- Write side of `ResampleProcessor::state_mut`. -/
def ResampleProcessor.set_state (p : ResampleProcessor) :
    AudioSourceType → StreamState → ResampleProcessor
  | .Microphone, st => { p with mic_state := st }
  | .System, st => { p with sys_state := st }

/-- Fuelled `chunks_exact`: full `n`-chunks of a list, incomplete tail
dropped (Rust `chunks_exact` panics on `n = 0`; the embedding returns
`[]` there, and no call site uses `n = 0`). -/
def chunksExactFuel (fuel : ℕ) (n : ℕ) (l : List ℚ) : List (List ℚ) :=
  match fuel with
  | 0 => []
  | fuel + 1 =>
    if n ≤ l.length ∧ 0 < n then
      l.take n :: chunksExactFuel fuel n (l.drop n)
    else []

/-- `chunks_exact` with adequate fuel. -/
def chunksExact (n : ℕ) (l : List ℚ) : List (List ℚ) :=
  chunksExactFuel (l.length + 1) n l

/-- Mirrors `ResampleProcessor::convert_channels` (resample.rs 127-147):
multi-channel → mono by arithmetic mean, mono → stereo by duplication,
otherwise the samples pass unchanged. -/
def convert_channels (target_channels : ℕ) (frame : AudioFrame) :
    List ℚ :=
  if target_channels = 1 ∧ 1 < frame.channels then
    (chunksExact frame.channels frame.samples).map
      (fun chunk => chunk.sum / (frame.channels : ℚ))
  else if target_channels = 2 ∧ frame.channels = 1 then
    frame.samples.flatMap (fun s => [s, s])
  else frame.samples

/-- Fuelled unrolling of the `while` loop in
`process_resampling_state` (resample.rs 165-231): as long as the input
buffer holds at least `chunk_size × channels` samples, consume one chunk,
run the resampler, and emit one frame when the output is non-empty (a
failed `resampler.process` skips the emission, modelled by an empty oracle
output).  `u64` timestamp math wraps explicitly. -/
def resampleLoopFuel (fuel : ℕ) (r : ResamplerFn) (st : StreamState)
    (chunk_size target_rate target_channels : ℕ)
    (source : AudioSourceType) : StreamState × List AudioFrame :=
  match fuel with
  | 0 => (st, [])
  | fuel + 1 =>
    let needed := chunk_size * target_channels
    if needed ≤ st.input_buffer.length ∧ 0 < needed then
      let chunk := st.input_buffer.take needed
      let st := { st with input_buffer := st.input_buffer.drop needed }
      let samples := r chunk
      if samples = [] then
        resampleLoopFuel fuel r st chunk_size target_rate target_channels
          source
      else
        let frame_samples := samples.length / target_channels
        let frame_ts := (st.current_timestamp +
          (st.buffered_samples * 1000000000) % u64Mod / target_rate)
          % u64Mod
        let st := { st with buffered_samples :=
          (st.buffered_samples + frame_samples) % u64Mod }
        let rest := resampleLoopFuel fuel r st chunk_size target_rate
          target_channels source
        (rest.1, AudioFrame.mk source samples target_rate target_channels
          frame_ts :: rest.2)
    else (st, [])

/-- Mirrors `ResampleProcessor::process_resampling_state` (resample.rs
149-253): with a resampler, run the chunk loop; without one, drain the
whole output queue into a single frame when it is non-empty. -/
def process_resampling_state (st : StreamState)
    (chunk_size target_rate target_channels : ℕ)
    (source : AudioSourceType) : StreamState × List AudioFrame :=
  match st.resampler with
  | some r =>
    resampleLoopFuel (st.input_buffer.length + 1) r st chunk_size
      target_rate target_channels source
  | none =>
    if st.output_queue ≠ [] then
      let samples := st.output_queue
      let frame_samples := samples.length / target_channels
      let frame_ts := (st.current_timestamp +
        (st.buffered_samples * 1000000000) % u64Mod / target_rate)
        % u64Mod
      let st2 := { st with
        output_queue := ([] : List ℚ)
        buffered_samples := (st.buffered_samples + frame_samples) % u64Mod }
      (st2,
        [AudioFrame.mk source samples
          (if st.source_rate = target_rate then target_rate
            else st.source_rate)
          target_channels frame_ts])
    else (st, [])

/-- Mirrors `<ResampleProcessor as AudioProcessor>::process` (resample.rs
335-366): record the source, convert channels, anchor the timestamp on an
empty state, buffer the samples on the side matching the resampler's
presence, run the state machine, queue the results and pop the first. -/
def ResampleProcessor.process (p : ResampleProcessor)
    (frame : AudioFrame) : ResampleProcessor × Option AudioFrame :=
  let source := frame.source
  let p := { p with last_processed_source := source }
  let samples_ref := convert_channels p.target_channels frame
  let st := p.state_sel source
  let st :=
    if st.input_buffer = [] ∧ st.output_queue = [] then
      { st with current_timestamp := frame.timestamp
                buffered_samples := 0 }
    else st
  let st :=
    match st.resampler with
    | some _ => { st with input_buffer := st.input_buffer ++ samples_ref }
    | none => { st with output_queue := st.output_queue ++ samples_ref }
  let r := process_resampling_state st p.chunk_size p.target_rate
    p.target_channels source
  let st := { r.1 with ready_queue := r.1.ready_queue ++ r.2 }
  match st.ready_queue with
  | [] => (p.set_state source st, none)
  | f :: rest => (p.set_state source { st with ready_queue := rest }, some f)

/-- Mirrors `<ResampleProcessor as AudioProcessor>::drain_ready`
(resample.rs 368-372). -/
def ResampleProcessor.drain_ready (p : ResampleProcessor) :
    ResampleProcessor × Option AudioFrame :=
  let source := p.last_processed_source
  let st := p.state_sel source
  match st.ready_queue with
  | [] => (p, none)
  | f :: rest => (p.set_state source { st with ready_queue := rest }, some f)

/-- Repeated `process` over a frame list, keeping only the state. -/
def ResampleProcessor.runResample (p : ResampleProcessor)
    (frames : List AudioFrame) : ResampleProcessor :=
  frames.foldl (fun q g => (q.process g).1) p

/-- Invariant of a passthrough resampler between calls: no resampler is
present on either side and all queues have been drained. -/
def RInv (p : ResampleProcessor) : Prop :=
  p.mic_state.resampler = none ∧ p.sys_state.resampler = none ∧
    p.mic_state.output_queue = [] ∧ p.sys_state.output_queue = [] ∧
    p.mic_state.ready_queue = [] ∧ p.sys_state.ready_queue = []

/-- Construction with equal rates yields the passthrough invariant. -/
theorem new_RInv (rate target_channels : ℕ) (src : AudioSourceType)
    (mkResampler : Option ResamplerFn) :
    RInv (ResampleProcessor.new rate rate target_channels src
      mkResampler) := by
  refine ⟨?_, ?_, rfl, rfl, rfl, rfl⟩ <;>
    simp [ResampleProcessor.new, StreamState.new]

/-- Channel conversion is the identity when the frame's channel count
already matches the target. -/
theorem convert_channels_id (t : ℕ) (frame : AudioFrame)
    (h : frame.channels = t) : convert_channels t frame = frame.samples := by
  unfold convert_channels
  split_ifs with h1 h2
  · omega
  · omega
  · rfl

/-- Every `process` call preserves the passthrough invariant. -/
theorem process_preserves_RInv (p : ResampleProcessor)
    (frame : AudioFrame) (hinv : RInv p) : RInv (p.process frame).1 := by
  obtain ⟨hm, hs, hmo, hso, hmr, hsr⟩ := hinv
  obtain ⟨ms, ss, cs, tr, tc, st0, lps⟩ := p
  obtain ⟨msr, msrate, msin, msout, msts, msbuf, msready⟩ := ms
  obtain ⟨ssr, ssrate, ssin, ssout, ssts, ssbuf, ssready⟩ := ss
  dsimp only at hm hs hmo hso hmr hsr
  subst hm
  subst hs
  subst hmo
  subst hso
  subst hmr
  subst hsr
  obtain ⟨src, samples, rate, ch, ts⟩ := frame
  cases src with
  | Microphone =>
    simp only [ResampleProcessor.process, ResampleProcessor.state_sel,
      ResampleProcessor.set_state, process_resampling_state]
    split_ifs with ha hb hb <;> simp_all [RInv]
  | System =>
    simp only [ResampleProcessor.process, ResampleProcessor.state_sel,
      ResampleProcessor.set_state, process_resampling_state]
    split_ifs with ha hb hb <;> simp_all [RInv]

/-- `process` leaves the configuration fields of the processor alone. -/
theorem process_target_channels (p : ResampleProcessor)
    (frame : AudioFrame) :
    (p.process frame).1.target_channels = p.target_channels := by
  obtain ⟨ms, ss, cs, tr, tc, st0, lps⟩ := p
  obtain ⟨src, samples, rate, ch, ts⟩ := frame
  cases src with
  | Microphone =>
    simp only [ResampleProcessor.process, ResampleProcessor.state_sel,
      ResampleProcessor.set_state]
    split <;> rfl
  | System =>
    simp only [ResampleProcessor.process, ResampleProcessor.state_sel,
      ResampleProcessor.set_state]
    split <;> rfl

/-- On a passthrough-invariant state, `process` of a non-empty frame whose
channel count matches the target emits a frame whose samples equal the
input samples bitwise. -/
theorem resample_passthrough_step (p : ResampleProcessor)
    (frame : AudioFrame) (hinv : RInv p)
    (hch : frame.channels = p.target_channels)
    (hne : frame.samples ≠ []) :
    ∃ out, (p.process frame).2 = some out ∧
      out.samples = frame.samples := by
  obtain ⟨hm, hs, hmo, hso, hmr, hsr⟩ := hinv
  obtain ⟨ms, ss, cs, tr, tc, st0, lps⟩ := p
  obtain ⟨msr, msrate, msin, msout, msts, msbuf, msready⟩ := ms
  obtain ⟨ssr, ssrate, ssin, ssout, ssts, ssbuf, ssready⟩ := ss
  dsimp only at hm hs hmo hso hmr hsr hch
  subst hm
  subst hs
  subst hmo
  subst hso
  subst hmr
  subst hsr
  obtain ⟨src, samples, rate, ch, ts⟩ := frame
  dsimp only at hch hne
  have hconv : convert_channels tc (AudioFrame.mk src samples rate ch ts)
      = samples := convert_channels_id tc _ hch
  cases src with
  | Microphone =>
    simp only [ResampleProcessor.process, ResampleProcessor.state_sel,
      ResampleProcessor.set_state, process_resampling_state, hconv]
    split_ifs with ha hb hb <;> simp_all
  | System =>
    simp only [ResampleProcessor.process, ResampleProcessor.state_sel,
      ResampleProcessor.set_state, process_resampling_state, hconv]
    split_ifs with ha hb hb <;> simp_all

/-- C9 counterexample: the claim fails as stated on the empty frame.  A
frame with matching channel count but zero samples produces no emission at
all from a passthrough `ResampleProcessor`, so it is not "emitted with its
samples bitwise equal". -/
theorem resample_passthrough_cex :
    ((ResampleProcessor.new 48000 48000 1 .Microphone none).process
        (AudioFrame.mk .Microphone [] 48000 1 5)).2 = none ∧
      (AudioFrame.mk .Microphone [] 48000 1 5).channels = 1 ∧
      ¬ ∃ out, ((ResampleProcessor.new 48000 48000 1 .Microphone
          none).process (AudioFrame.mk .Microphone [] 48000 1 5)).2
          = some out := by
  refine ⟨rfl, rfl, ?_⟩
  rintro ⟨out, hout⟩
  rw [show ((ResampleProcessor.new 48000 48000 1 .Microphone none).process
      (AudioFrame.mk .Microphone [] 48000 1 5)).2 = none from rfl] at hout
  cases hout

/-- The passthrough invariant survives a whole run. -/
theorem runResample_RInv (frames : List AudioFrame)
    (p : ResampleProcessor) (h : RInv p) : RInv (p.runResample frames) := by
  induction frames generalizing p with
  | nil => exact h
  | cons g gs ih => exact ih _ (process_preserves_RInv p g h)

/-- The target channel count survives a whole run. -/
theorem runResample_target_channels (frames : List AudioFrame)
    (p : ResampleProcessor) :
    (p.runResample frames).target_channels = p.target_channels := by
  induction frames generalizing p with
  | nil => rfl
  | cons g gs ih => exact (ih _).trans (process_target_channels p g)

/-- C9 amended: for a `ResampleProcessor` constructed with
`source_rate = target_rate` (whatever the external resampler constructor
would have returned), after any sequence of processed frames, every
NON-EMPTY frame whose channel count equals the target channel count is
emitted with its samples bitwise equal to the input samples.  (The
non-emptiness hypothesis is forced: an empty frame produces no emission,
see the counterexample.) -/
theorem resample_passthrough (rate target_channels : ℕ)
    (src : AudioSourceType) (mkResampler : Option ResamplerFn)
    (prior : List AudioFrame) (f : AudioFrame)
    (hch : f.channels = target_channels) (hne : f.samples ≠ []) :
    ∃ out,
      (((ResampleProcessor.new rate rate target_channels src
          mkResampler).runResample prior).process f).2 = some out ∧
      out.samples = f.samples := by
  have hinv : RInv ((ResampleProcessor.new rate rate target_channels src
      mkResampler).runResample prior) :=
    runResample_RInv prior _ (new_RInv rate target_channels src mkResampler)
  have htc : ((ResampleProcessor.new rate rate target_channels src
      mkResampler).runResample prior).target_channels = target_channels :=
    runResample_target_channels prior _
  exact resample_passthrough_step _ f hinv (by rw [hch, htc]) hne

/-- Witness for C9 amended: 48 kHz → 48 kHz mono passthrough of a concrete
two-sample frame. -/
theorem resample_passthrough_witness :
    ∃ out,
      (((ResampleProcessor.new 48000 48000 1 .Microphone
          none).runResample []).process
        (AudioFrame.mk .Microphone [1, 2] 48000 1 7)).2 = some out ∧
      out.samples = (AudioFrame.mk .Microphone [1, 2] 48000 1 7).samples :=
  resample_passthrough 48000 1 .Microphone none []
    (AudioFrame.mk .Microphone [1, 2] 48000 1 7) rfl (by decide)

/-- Kinds of processors appearing in the main chain built by
`ModularPipeline::new` (modular_pipeline.rs 51-77). -/
inductive ProcKind where
  | timestampNorm
  | webrtcResample
  | quantizerStage
  | aecStage
  | nsStage
  deriving DecidableEq, Repr

/-- The fixed stage-name literals used by `ModularPipeline::stage_key`. -/
inductive StageKey where
  | timestamp_processor
  | webrtc_resample_processor
  | quantizer_processor
  | aec_processor
  | ns_processor
  deriving DecidableEq, Repr

/-- Mirrors `ModularPipeline::stage_key` (modular_pipeline.rs 33-42):
positional index to stage name, guards as in the source match. -/
def ModularPipeline.stage_key (index : ℕ)
    (has_webrtc enable_aec enable_ns : Bool) : Option StageKey :=
  match index with
  | 0 => some .timestamp_processor
  | 1 => if has_webrtc then some .webrtc_resample_processor else none
  | 2 => if has_webrtc then some .quantizer_processor else none
  | 3 => if enable_aec && has_webrtc then some .aec_processor else none
  | 4 => if enable_ns && has_webrtc then some .ns_processor else none
  | _ => none

/-- Mirrors the chain composition of `ModularPipeline::new`
(modular_pipeline.rs 51-77): timestamp normalizer always; resampler and
quantizer when AEC or NS is enabled; then AEC; then NS. -/
def ModularPipeline.mainChain (config : AudioProcessingConfig) :
    List ProcKind :=
  [ProcKind.timestampNorm] ++
    (if config.enable_aec || config.enable_ns then
      [ProcKind.webrtcResample] else []) ++
    (if config.enable_aec || config.enable_ns then
      [ProcKind.quantizerStage] else []) ++
    (if config.enable_aec then [ProcKind.aecStage] else []) ++
    (if config.enable_ns then [ProcKind.nsStage] else [])

/-- The stage keys under which `process_through_pipeline`
(modular_pipeline.rs 190-252) can record stage statistics: one lookup per
chain index, with `has_webrtc = enable_aec || enable_ns` as at the call
site (line 195). -/
def ModularPipeline.recordedStageKeys (config : AudioProcessingConfig) :
    List (Option StageKey) :=
  (List.range (ModularPipeline.mainChain config).length).map fun i =>
    ModularPipeline.stage_key i (config.enable_aec || config.enable_ns)
      config.enable_aec config.enable_ns

/-- C10: with NS enabled and AEC disabled, the main chain holds the noise
suppressor at index 3, `stage_key` maps index 3 to none in that
configuration, and no chain index maps to the `ns_processor` stage — so the
`ns_processor` stage statistics are never updated during frame processing
even though NS frames are processed. -/
theorem ns_stage_unmetered (config : AudioProcessingConfig)
    (hns : config.enable_ns = true) (haec : config.enable_aec = false) :
    (ModularPipeline.mainChain config)[3]? = some ProcKind.nsStage ∧
      ModularPipeline.stage_key 3
        (config.enable_aec || config.enable_ns) config.enable_aec
        config.enable_ns = none ∧
      ∀ k ∈ ModularPipeline.recordedStageKeys config,
        k ≠ some StageKey.ns_processor := by
  simp only [ModularPipeline.mainChain, ModularPipeline.recordedStageKeys,
    hns, haec]
  decide

/-- Witness for C10 at a concrete configuration with NS on and AEC off. -/
theorem ns_stage_unmetered_witness :
    (ModularPipeline.mainChain (AudioProcessingConfig.mk 48000 2 false
        true 0 false 140))[3]? = some ProcKind.nsStage ∧
      ModularPipeline.stage_key 3
        ((AudioProcessingConfig.mk 48000 2 false true 0 false
          140).enable_aec ||
          (AudioProcessingConfig.mk 48000 2 false true 0 false
            140).enable_ns)
        (AudioProcessingConfig.mk 48000 2 false true 0 false
          140).enable_aec
        (AudioProcessingConfig.mk 48000 2 false true 0 false
          140).enable_ns = none ∧
      ∀ k ∈ ModularPipeline.recordedStageKeys
          (AudioProcessingConfig.mk 48000 2 false true 0 false 140),
        k ≠ some StageKey.ns_processor :=
  ns_stage_unmetered (AudioProcessingConfig.mk 48000 2 false true 0 false
    140) rfl rfl

end Macloop
